import Mathlib

/-!
Shallow embedding of the media-publishing pipeline of this repository
(YouTube poster, Facebook Reels poster, Pinterest video-pin poster and the
YouTube comment worker), together with proofs of the spec's testable
properties.  Python dicts that serve as keyed stores are embedded as
association lists with first-match lookup and replace-or-append update,
matching Python dict semantics (unique keys, insertion order preserved).
External collaborators (HTTP, the filesystem clock, `hashlib`, `random`)
are embedded as explicit parameters or as concrete pure functions where
only purity matters.
-/

/-- First-match lookup in an association list keyed by strings; models
`dict.get(key)` on a Python dict whose keys are unique. -/
def lookupRec {α : Type} : List (String × α) → String → Option α
  | [], _ => none
  | (k, v) :: rest, key => if k = key then some v else lookupRec rest key

/-- Replace-or-append update of an association list; models `d[key] = v`
on a Python dict (existing key keeps its position, new key appends). -/
def setRec {α : Type} : List (String × α) → String → α → List (String × α)
  | [], key, v => [(key, v)]
  | (k, v0) :: rest, key, v =>
      if k = key then (key, v) :: rest else (k, v0) :: setRec rest key v

/-- Python `str.lower()` (character-wise lower-casing). -/
def strLower (s : String) : String := String.mk (s.data.map Char.toLower)

/-- Whitespace-stripping on a character list (both ends). -/
def trimChars (l : List Char) : List Char :=
  ((l.dropWhile Char.isWhitespace).reverse.dropWhile Char.isWhitespace).reverse

/-- Python `str.strip()` with the default whitespace set. -/
def strTrim (s : String) : String := String.mk (trimChars s.data)

/-- Worker for `splitOnChar`, accumulating the current piece reversed. -/
def splitOnCharGo (sep : Char) : List Char → List Char → List String
  | [], cur => [String.mk cur.reverse]
  | c :: rest, cur =>
      if c = sep then String.mk cur.reverse :: splitOnCharGo sep rest []
      else splitOnCharGo sep rest (c :: cur)

/-- Python `str.split(sep)` for a one-character separator (in particular
`"".split(sep) == [""]`). -/
def splitOnChar (sep : Char) (s : String) : List String :=
  splitOnCharGo sep s.data []

/-- `MANIFEST_FILES_ORDER` — the daily manifest rotation order, identical in
`youtube-post/post_one_video.py` and `facebook_reels/post_one_reel.py`. -/
def MANIFEST_FILES_ORDER : List String :=
  ["drywall.json", "wood.json", "wet.json", "metal.json", "plastic.json"]

/-- `MAX_ATTEMPTS_PER_VIDEO = 3` (same constant in both posting scripts). -/
def MAX_ATTEMPTS_PER_VIDEO : Int := 3

namespace Yt

/-- `VideoItem` of `youtube-post/post_one_video.py` (all-string dataclass). -/
structure VideoItem where
  manifest_name : String
  manifest_action : String
  manifest_tag : String
  video_url : String
  filename : String
  title : String
  description : String
  destination_url : String
  alt : String
  status : String
deriving DecidableEq, Repr

/-- One per-item record of the YouTube publish-state ledger
(`state["items"][video_url]`).  A missing `result`/`error` key is `none`;
`attempts` is read through `int(rec.get("attempts") or 0)`, embedded as an
`Int` where an absent key is the record never having been created. -/
structure PostRec where
  video_url : String := ""
  filename : String := ""
  manifest : String := ""
  title : String := ""
  destination_url : String := ""
  result : Option String := none
  attempts : Int := 0
  video_id : String := ""
  error : Option String := none
deriving DecidableEq, Repr

/-- The `rotation` sub-dict: `manifest_index` (may be absent) and `last_day`. -/
structure Rotation where
  index : Option Int := none
  lastDay : String := ""
deriving DecidableEq, Repr

/-- One entry of the append-only `runs` audit list (timestamp elided: it is
an external-clock string never read back by the selection logic). -/
structure RunEntry where
  video_url : String
  result : String
  video_id : String
deriving DecidableEq, Repr

/-- The whole YouTube publish-state store (`youtube_post_state.json`). -/
structure State where
  rotation : Rotation := {}
  items : List (String × PostRec) := []
  runs : List RunEntry := []
deriving DecidableEq, Repr

/-- `should_skip_item`: skip when a record exists and is already a success,
or has exhausted `MAX_ATTEMPTS_PER_VIDEO` attempts. -/
def should_skip_item (state : State) (item : VideoItem) : Bool :=
  match lookupRec state.items item.video_url with
  | none => false
  | some recd =>
      decide (recd.result = some "success") ||
      decide (MAX_ATTEMPTS_PER_VIDEO ≤ recd.attempts)

/-- The index read `int(rotation.get("manifest_index") or -1)`: an absent key
gives `-1`, and — because Python `or` treats the integer `0` as falsy — a
stored `0` also reads back as `-1`. -/
def readRotIndex (r : Rotation) : Int :=
  match r.index with
  | none => -1
  | some v => if v = 0 then -1 else v

/-- Eligibility filter applied by both scan passes of `pick_next_item`:
status (when present) must be "ready", url and title non-empty, and the
ledger must not say skip. -/
def eligible (state : State) (it : VideoItem) : Bool :=
  (decide (it.status = "") || decide (strLower it.status = "ready")) &&
  decide (it.video_url ≠ "") && decide (it.title ≠ "") &&
  !(should_skip_item state it)

/-- The manifest index `pick_next_item` works with for this run: the read
index advanced by one modulo the manifest count on a day change, else the
read index itself. -/
def activeIndex (today : String) (r : Rotation) : Int :=
  if today ≠ r.lastDay then (readRotIndex r + 1) % (max 1 (MANIFEST_FILES_ORDER.length : Int))
  else readRotIndex r

/-- The rotation sub-dict after `pick_next_item`'s once-per-day update. -/
def rotatedRotation (today : String) (r : Rotation) : Rotation :=
  if today ≠ r.lastDay then { index := some (activeIndex today r), lastDay := today }
  else r

/-- The two scan passes of `pick_next_item`: the manifests in rotated order
(the per-manifest grouping dict `by_manifest` is embedded as an
order-preserving filter of `all_items` by manifest name, which yields the
same scan order), then a fallback scan over everything. -/
def pickScan (st : State) (idx : Int) (allItems : List VideoItem) : Option VideoItem :=
  let ordered := (List.range MANIFEST_FILES_ORDER.length).map
    (fun i => MANIFEST_FILES_ORDER.getD ((idx + (i : Int)) % (MANIFEST_FILES_ORDER.length : Int)).toNat "")
  match (ordered.flatMap (fun m => allItems.filter (fun x => decide (x.manifest_name = m)))).find?
      (eligible st) with
  | some x => some x
  | none => allItems.find? (eligible st)

/-- `pick_next_item` of `youtube-post/post_one_video.py`: rotate the
starting manifest index once per UTC day (in memory only — the caller is
responsible for saving), then scan for the first eligible item.  Returns
the (possibly rotation-updated) state and the pick. -/
def pick_next_item (today : String) (state : State) (allItems : List VideoItem) :
    State × Option VideoItem :=
  let st : State := { state with rotation := rotatedRotation today state.rotation }
  (st, pickScan st (activeIndex today state.rotation) allItems)

/-- `record_attempt`: load-or-create the item's record, set the metadata
fields, set `result`, increment `attempts`, set `video_id`, set `error`
only when non-empty, and append an audit run entry. -/
def record_attempt (state : State) (item : VideoItem)
    (result : String) (video_id : String) (error : String) : State :=
  let rec0 := (lookupRec state.items item.video_url).getD {}
  let rec1 : PostRec :=
    { video_url := item.video_url
      filename := item.filename
      manifest := item.manifest_name
      title := item.title
      destination_url := item.destination_url
      result := some result
      attempts := rec0.attempts + 1
      video_id := video_id
      error := if error ≠ "" then some error else rec0.error }
  { state with
      items := setRec state.items item.video_url rec1
      runs := state.runs ++ [{ video_url := item.video_url, result := result, video_id := video_id }] }

/-- Abstract outcome of the download/init/upload phase of one `main` run. -/
inductive Outcome where
  | success (video_id : String)
  | failed (error : String)
  | earlyError
deriving DecidableEq, Repr

/-- The state `main` leaves persisted on disk after one run.  `main` saves
the store only inside the upload `try`/`except` (both call
`save_json_atomic`); when `pick_next_item` returns no item it prints and
returns without saving, and an exception before the upload (token,
download, init) propagates before any save — in those cases the on-disk
state is the unchanged `disk`. -/
def mainPersisted (today : String) (allItems : List VideoItem)
    (disk : State) (outcome : Outcome) : State :=
  let pr := pick_next_item today disk allItems
  match pr.2 with
  | none => disk
  | some item =>
      match outcome with
      | .success vid => record_attempt pr.1 item "success" vid ""
      | .failed err => record_attempt pr.1 item "failed" "" err
      | .earlyError => disk

end Yt

namespace Fb

/-- `truncate` of `facebook_reels/post_one_reel.py`: strip, and when over
the limit cut to `limit - 1` characters, right-strip, and append an
ellipsis character. -/
def truncate (text : String) (limit : Nat) : String :=
  let t := strTrim text
  if t.length ≤ limit then t
  else String.mk ((t.data.take (limit - 1)).reverse.dropWhile Char.isWhitespace).reverse ++ "…"

/-- The filename fallback computed from the URL when the manifest omits it:
`video_url.split("?")[0].split("#")[0].rstrip("/").split("/")[-1] or "video.mp4"`. -/
def infer_filename (video_url : String) : String :=
  let s1 := (splitOnChar '?' video_url).headD ""
  let s2 := (splitOnChar '#' s1).headD ""
  let s3 := String.mk (s2.data.reverse.dropWhile (fun c => c = '/')).reverse
  let base := (splitOnChar '/' s3).getLastD ""
  if base = "" then "video.mp4" else base

/-- `TITLE_MAX = 100` in `facebook_reels/post_one_reel.py`. -/
def TITLE_MAX : Nat := 100

/-- `DESC_MAX = 2000` in `facebook_reels/post_one_reel.py`. -/
def DESC_MAX : Nat := 2000

/-- A raw manifest entry as read from a `manifests/*.json` item (the four
keys `ensure_required_fields` reads; an absent key reads as `""`). -/
structure RawItem where
  video_url : String := ""
  filename : String := ""
  title : String := ""
  description : String := ""
deriving DecidableEq, Repr

/-- `ReelItem` dataclass. -/
structure ReelItem where
  manifest_name : String
  video_url : String
  filename : String
  title : String
  description : String
deriving DecidableEq, Repr

/-- Per-item record of the Facebook Reels state ledger. -/
structure ReelRec where
  video_url : String := ""
  filename : String := ""
  manifest : String := ""
  title : String := ""
  description : String := ""
  result : Option String := none
  attempts : Int := 0
  video_id : Option String := none
  error : Option String := none
deriving DecidableEq, Repr

/-- The `rotation` sub-dict (`manifest_index` may be absent). -/
structure Rotation where
  index : Option Int := none
  lastDay : String := ""
deriving DecidableEq, Repr

/-- One entry of the append-only `runs` audit list (timestamp elided). -/
structure RunEntry where
  video_url : String
  filename : String
  manifest : String
  result : String
  video_id : Option String
  error : Option String
deriving DecidableEq, Repr

/-- The whole Facebook Reels state store (`facebook_reels_post_state.json`). -/
structure State where
  rotation : Rotation := {}
  items : List (String × ReelRec) := []
  runs : List RunEntry := []
deriving DecidableEq, Repr

/-- `manifest_cycle_for_today`: advance `manifest_index` once per UTC day
(`(idx + 1) % len(order)` when a previous index `≥ 0` exists, else `0`),
record today, and return the manifest name list rotated to start at the
stored index.  Returns the updated state together with that order. -/
def manifest_cycle_for_today (today : String) (state : State) : State × List String :=
  let idx0 := state.rotation.index.getD (-1)
  let rot' :=
    if strTrim state.rotation.lastDay ≠ today then
      { index := some (if 0 ≤ idx0 then (idx0 + 1) % (MANIFEST_FILES_ORDER.length : Int) else 0)
        lastDay := today }
    else state.rotation
  let start := ((rot'.index.getD 0) % (MANIFEST_FILES_ORDER.length : Int)).toNat
  ({ state with rotation := rot' },
    MANIFEST_FILES_ORDER.drop start ++ MANIFEST_FILES_ORDER.take start)

/-- `ensure_required_fields`: a blank `video_url` raises `ValueError`; the
filename falls back to `infer_filename`; title and description are
truncated to their limits. -/
def ensure_required_fields (raw : RawItem) (manifest_name : String) :
    Except String ReelItem :=
  let video_url := strTrim raw.video_url
  if video_url = "" then .error (String.append manifest_name " missing video_url")
  else
    let fn := strTrim raw.filename
    .ok { manifest_name := manifest_name
          video_url := video_url
          filename := if fn = "" then infer_filename video_url else fn
          title := truncate raw.title TITLE_MAX
          description := truncate raw.description DESC_MAX }

/-- Inner loop of `pick_next_item` over one manifest's `items` array:
validate each entry, skip records already `success` or at the attempt cap,
return the first remaining item. -/
def scanRaws (stItems : List (String × ReelRec)) (manifest_name : String) :
    List RawItem → Except String (Option ReelItem)
  | [] => .ok none
  | raw :: rest =>
      match ensure_required_fields raw manifest_name with
      | .error e => .error e
      | .ok it =>
          let rec0 := lookupRec stItems it.video_url
          let res := match rec0 with | some r => r.result | none => none
          let att : Int := match rec0 with | some r => r.attempts | none => 0
          if res = some "success" then scanRaws stItems manifest_name rest
          else if MAX_ATTEMPTS_PER_VIDEO ≤ att then scanRaws stItems manifest_name rest
          else .ok (some it)

/-- Outer loop of `pick_next_item` over the existing manifests in rotated
order, falling through to the next manifest when one yields nothing. -/
def scanManifests (stItems : List (String × ReelRec)) :
    List (String × List RawItem) → Except String (Option ReelItem)
  | [] => .ok none
  | (n, raws) :: rest =>
      match scanRaws stItems n raws with
      | .error e => .error e
      | .ok (some it) => .ok (some it)
      | .ok none => scanManifests stItems rest

/-- `pick_next_item` of `facebook_reels/post_one_reel.py`: rotate the
manifest order for today, keep the manifests that exist on disk (the input
association list), fail like `FileNotFoundError` when none exists, and scan
for the first pending item. -/
def pick_next_item (today : String) (manifests : List (String × List RawItem))
    (state : State) : State × Except String (Option ReelItem) :=
  let pr := manifest_cycle_for_today today state
  let existing := pr.2.filterMap
    (fun n => (lookupRec manifests n).map (fun its => (n, its)))
  if existing = [] then (pr.1, .error "no manifest json files found")
  else (pr.1, scanManifests pr.1.items existing)

/-- `update_state_for_attempt`: load-or-create the record, increment
`attempts`, overwrite the metadata/result fields, set `video_id`/`error`
only when a non-empty value is supplied, and append an audit run entry. -/
def update_state_for_attempt (state : State) (item : ReelItem) (result : String)
    (video_id : Option String) (error : Option String) : State :=
  let rec0 := (lookupRec state.items item.video_url).getD {}
  let att := rec0.attempts + 1
  let rec1 : ReelRec :=
    { video_url := item.video_url
      filename := item.filename
      manifest := item.manifest_name
      title := item.title
      description := item.description
      result := some result
      attempts := att
      video_id := match video_id with
        | some v => if v ≠ "" then some v else rec0.video_id
        | none => rec0.video_id
      error := match error with
        | some e => if e ≠ "" then some e else rec0.error
        | none => rec0.error }
  { state with
      items := setRec state.items item.video_url rec1
      runs := state.runs ++
        [{ video_url := item.video_url, filename := item.filename,
           manifest := item.manifest_name, result := result,
           video_id := video_id, error := error }] }

/-- Prefix test on character lists (used for substring search). -/
def prefixMatches : List Char → List Char → Bool
  | [], _ => true
  | _ :: _, [] => false
  | a :: as, b :: bs => decide (a = b) && prefixMatches as bs

/-- Substring test on character lists; models Python `needle in haystack`. -/
def hasSub (needle : List Char) : List Char → Bool
  | [] => prefixMatches needle []
  | c :: rest => prefixMatches needle (c :: rest) || hasSub needle rest

/-- `_is_retriable_upload_error`: lower-case the error text and look for the
transient markers — HTTP 429, HTTP 5xx (the source's deliberately crude
`"http 5"` substring), timeouts, connection resets/aborts, and the
processing-failed signals; everything else (including robots/403) is not
retriable. -/
def is_retriable_upload_error (err_text : String) : Bool :=
  let t := (strLower err_text).data
  hasSub "http 429".data t ||
  hasSub "http 5".data t ||
  hasSub "timeout".data t || hasSub "timed out".data t ||
  hasSub "connection reset".data t || hasSub "connection aborted".data t ||
  hasSub "request processing failed".data t || hasSub "processing failed".data t

/-- Python `int(part)` on an already-stripped string: an optional sign
followed by at least one decimal digit (exotic forms such as underscore
separators are rejected here; they never arise from the env values this
parser is given and cannot affect the positivity/non-emptiness claims). -/
def pyInt (s : String) : Option Int :=
  let core (ds : List Char) : Option Nat :=
    if ds = [] then none
    else if ds.all Char.isDigit then
      some (ds.foldl (fun acc c => acc * 10 + (c.toNat - 48)) 0)
    else none
  match s.data with
  | '-' :: ds => (core ds).map (fun n => -(n : Int))
  | '+' :: ds => (core ds).map (fun n => (n : Int))
  | ds => (core ds).map (fun n => (n : Int))

/-- One step of `_parse_retry_delays`' loop body: strip the piece, skip
blanks and unparseable or non-positive values, append the rest. -/
def retryDelayStep (acc : List Int) (part : String) : List Int :=
  let p := strTrim part
  if p = "" then acc
  else match pyInt p with
    | some v => if 0 < v then acc ++ [v] else acc
    | none => acc

/-- `_parse_retry_delays`: split the raw env string on commas, keep the
strictly positive integers, and fall back to `[60, 180, 600]` when nothing
valid was parsed. -/
def parse_retry_delays (raw : String) : List Int :=
  let out := (splitOnChar ',' raw).foldl retryDelayStep []
  if out = [] then [60, 180, 600] else out

/-- The upload retry loop of `main` (step 2 only), indexed by the attempt
outcomes: `results n = none` means attempt `n` succeeded, `some e` that it
raised error text `e`.  `remaining` is the number of attempts still allowed
after the current one (`attempts_total - attempt`).  Returns the list of
sleeps performed (each `UPLOAD_RETRY_DELAYS_SEC[min(attempt-1, len-1)]`)
and the final outcome: a non-retriable error, or a retriable error on the
final attempt, is re-raised immediately. -/
def uploadRetryGo (delays : List Int) (results : Nat → Option String) :
    Nat → Nat → List Int × Except String Unit
  | remaining, attempt =>
    match results attempt with
    | none => ([], .ok ())
    | some e =>
        match remaining with
        | 0 => ([], .error e)
        | r + 1 =>
            if is_retriable_upload_error e then
              let d := delays.getD (min (attempt - 1) (delays.length - 1)) 0
              let rest := uploadRetryGo delays results r (attempt + 1)
              (d :: rest.1, rest.2)
            else ([], .error e)

/-- The whole retry wrapper: `attempts_total = max(1, MAX_UPLOAD_ATTEMPTS)`
attempts starting at attempt 1. -/
def uploadWithRetry (attempts_total : Nat) (delays : List Int)
    (results : Nat → Option String) : List Int × Except String Unit :=
  uploadRetryGo delays results (attempts_total - 1) 1

/-- The resumable branch of `upload_binary_video`: submit successive chunks
`(offset, length)`; after each response take the server's `end_offset` when
the JSON body has one (`responses i = some eo`), else advance by the local
chunk length.  `fuel` bounds the iteration count (the Python `while` can
spin only as long as the server keeps acknowledging; every run of interest
is reached with enough fuel).  Returns the submitted byte ranges. -/
def uploadChunksGo (file_size chunk_size : Nat) (responses : Nat → Option Nat) :
    Nat → Nat → Nat → List (Nat × Nat)
  | 0, _, _ => []
  | fuel + 1, i, offset =>
      if offset < file_size then
        let len := min chunk_size (file_size - offset)
        if len = 0 then []
        else
          let next := match responses i with
            | some eo => eo
            | none => offset + len
          (offset, len) :: uploadChunksGo file_size chunk_size responses fuel (i + 1) next
      else []

/-- `upload_binary_video` in forced-resumable mode, starting at offset 0. -/
def upload_binary_video (file_size chunk_size : Nat)
    (responses : Nat → Option Nat) (fuel : Nat) : List (Nat × Nat) :=
  uploadChunksGo file_size chunk_size responses fuel 0 0

/-- The `status` object returned by `get_upload_status`, reduced to the four
string fields `wait_until_published` inspects (missing keys read as `""`). -/
structure UploadStatus where
  uploading : String := ""
  processing : String := ""
  publishing : String := ""
  video_status : String := ""
deriving DecidableEq, Repr

/-- `wait_until_published`: poll `statuses i` on a fixed 5-second interval
(`fuel` is the number of polls the 600-second deadline still allows);
return the current status once publishing is complete or the video status
is ready/published, raise when any phase reports error/failed, and on
deadline exhaustion return the last-seen status as a partial result. -/
def wait_until_published (statuses : Nat → UploadStatus) :
    Nat → Nat → UploadStatus → Except String UploadStatus
  | 0, _, last => .ok last
  | fuel + 1, i, _last =>
      let st := statuses i
      if strLower st.publishing = "complete" then .ok st
      else if strLower st.video_status = "ready" ∨ strLower st.video_status = "published" then .ok st
      else if (strLower st.uploading = "error" ∨ strLower st.uploading = "failed") ∨
              (strLower st.processing = "error" ∨ strLower st.processing = "failed") ∨
              (strLower st.publishing = "error" ∨ strLower st.publishing = "failed") then
        .error "status indicates failure"
      else wait_until_published statuses fuel (i + 1) st

/-- `STATUS_POLL_TIMEOUT_SEC / STATUS_POLL_INTERVAL_SEC = 600 / 5`: the
number of polls the deadline admits. -/
def STATUS_POLL_BUDGET : Nat := 120

/-- The tail of a successful `main` run after `publish_reel` (step 4
onward): poll `wait_until_published` and then update the ledger — the
polled status is only printed, an `.ok` result (terminal or timed-out
partial alike) leads straight to recording `"success"`; only a raising
poll (explicit failure signal) diverts to the `except` path that records
`"failed"`. -/
def mainAfterPublish (statuses : Nat → UploadStatus) (state : State)
    (item : ReelItem) (video_id : String) : State :=
  match wait_until_published statuses STATUS_POLL_BUDGET 0 {} with
  | .ok _st => update_state_for_attempt state item "success" (some video_id) none
  | .error e => update_state_for_attempt state item "failed" (some video_id) (some e)

/-- Abstract outcome of one `main` run after an item was picked. -/
inductive Outcome where
  | success (video_id : String)
  | failed (video_id : Option String) (error : String)
  | dryRun
deriving DecidableEq, Repr

/-- The state `main` leaves persisted after one run: a pick exception
propagates before any save; an empty pick saves the (rotation-updated)
state; a dry run saves it too; otherwise the attempt outcome is recorded
and saved on both the success and the `except` path. -/
def mainPersisted (today : String) (manifests : List (String × List RawItem))
    (disk : State) (outcome : Outcome) : State :=
  let pr := pick_next_item today manifests disk
  match pr.2 with
  | .error _ => disk
  | .ok none => pr.1
  | .ok (some item) =>
      match outcome with
      | .success vid => update_state_for_attempt pr.1 item "success" (some vid) none
      | .failed vid err => update_state_for_attempt pr.1 item "failed" vid (some err)
      | .dryRun => pr.1

end Fb

namespace Pin

/-- `PinItem` of `pinterest/post_one_video_pin.py`, reduced to the fields
`update_state_for_attempt` and the posting flow read. -/
structure PinItem where
  manifest_name : String
  video_url : String
  filename : String
  title : String
  board_id : String
  destination_url : String
deriving DecidableEq, Repr

/-- Per-item record of the Pinterest state ledger. -/
structure PinRec where
  video_url : String := ""
  filename : String := ""
  manifest : String := ""
  board_id : String := ""
  destination_url : String := ""
  title : String := ""
  result : Option String := none
  attempts : Int := 0
  pin_id : Option String := none
  media_id : Option String := none
  cover_image_url : Option String := none
  error : Option String := none
deriving DecidableEq, Repr

/-- The Pinterest state store, reduced to its `items` map (the rotation
cursor of this script is not under claim). -/
structure State where
  items : List (String × PinRec) := []
deriving DecidableEq, Repr

/-- `MEDIA_POLL_TIMEOUT_SEC / MEDIA_POLL_INTERVAL_SEC = 180 / 3`: the
number of polls the deadline admits. -/
def MEDIA_POLL_BUDGET : Nat := 60

/-- `poll_media_status`: poll `statuses i` on a fixed 3-second interval,
return `"succeeded"`/`"failed"` as soon as the lower-cased status says so,
and on deadline exhaustion return the last-seen status (initially the
placeholder `"registered"`). -/
def poll_media_status (statuses : Nat → String) :
    Nat → Nat → String → String
  | 0, _, last => last
  | fuel + 1, i, _last =>
      let s := strLower (statuses i)
      if s = "succeeded" then "succeeded"
      else if s = "failed" then "failed"
      else poll_media_status statuses fuel (i + 1) s

/-- `update_state_for_attempt` of the Pinterest script: load-or-create,
increment `attempts`, overwrite metadata/result, set the optional id/error
fields only when a non-empty value is supplied, append an audit entry
(the run list is elided here; only `items` is under claim). -/
def update_state_for_attempt (state : State) (item : PinItem) (result : String)
    (pin_id media_id cover error : Option String) : State :=
  let rec0 := (lookupRec state.items item.video_url).getD {}
  let rec1 : PinRec :=
    { video_url := item.video_url
      filename := item.filename
      manifest := item.manifest_name
      board_id := item.board_id
      destination_url := item.destination_url
      title := item.title
      result := some result
      attempts := rec0.attempts + 1
      pin_id := match pin_id with
        | some v => if v ≠ "" then some v else rec0.pin_id
        | none => rec0.pin_id
      media_id := match media_id with
        | some v => if v ≠ "" then some v else rec0.media_id
        | none => rec0.media_id
      cover_image_url := match cover with
        | some v => if v ≠ "" then some v else rec0.cover_image_url
        | none => rec0.cover_image_url
      error := match error with
        | some e => if e ≠ "" then some e else rec0.error
        | none => rec0.error }
  { items := setRec state.items item.video_url rec1 }

/-- The tail of `main` after the S3 upload: poll the media status; a result
other than `"succeeded"` raises and the `except` path records `"failed"`;
on `"succeeded"` the pin is created (`pinOutcome`) and `"success"` is
recorded — a pin-creation error also lands on the `except` path. -/
def mainAfterUpload (statuses : Nat → String) (state : State) (item : PinItem)
    (media_id : String) (pinOutcome : Except String String) : State :=
  let status := poll_media_status statuses MEDIA_POLL_BUDGET 0 "registered"
  if status = "succeeded" then
    match pinOutcome with
    | .ok pin_id =>
        update_state_for_attempt state item "success" (some pin_id) (some media_id) none none
    | .error e =>
        update_state_for_attempt state item "failed" none (some media_id) none (some e)
  else
    update_state_for_attempt state item "failed" none (some media_id) none
      (some (String.append "media processing status: " status))

end Pin

namespace Cw

/-- `MAX_COMMENT_ATTEMPTS = 2` in `youtube-post/comment_worker.py`. -/
def MAX_COMMENT_ATTEMPTS : Int := 2

/-- `VERIFY_DELAY_SEC = 180` — the comment-verification delay in seconds. -/
def VERIFY_DELAY_SEC : Int := 180

/-- `DEFAULT_JITTER_MAX_SEC = 36`. -/
def DEFAULT_JITTER_MAX_SEC : Nat := 36

/-- `len(TEMPLATES)`: the comment template list has 25 entries (the texts
themselves are never branched on and are elided). -/
def TEMPLATES_COUNT : Nat := 25

/-- Models the seed computed by `stable_rng`:
`int(sha256(seed_text).hexdigest()[:8], 16)`, i.e. a pure 32-bit function
of the seed text.  `hashlib` is an external library; the exact mixing is
irrelevant to every property proved below, which use only that the seed is
a deterministic function of the text. -/
def stable_rng (seed_text : String) : Nat :=
  seed_text.data.foldl (fun a c => (a * 131 + c.toNat) % 4294967296) 7

/-- Models one output draw of the external `random.Random` generator from
its current state (a linear-congruential stand-in for the Mersenne
Twister; again only determinism matters). -/
def rngDraw (s : Nat) : Nat := (s * 1103515245 + 12345) % 2147483648

/-- Models `Random(seed).randint(lo, hi)` (inclusive bounds). -/
def pyRandint (seed lo hi : Nat) : Nat := lo + rngDraw seed % (hi - lo + 1)

/-- The jitter delay of `comment_worker.main`: when `jitter_max > 0`, a
`randint(0, jitter_max)` drawn from `stable_rng(f"{video_id}|{utc_today()}")`. -/
def jitterDelay (video_id today : String) (jitter_max : Nat) : Nat :=
  if 0 < jitter_max then
    pyRandint (stable_rng (video_id ++ "|" ++ today)) 0 jitter_max
  else 0

/-- The persisted `comment_plan` sub-dict. -/
structure CommentPlan where
  decision : String
  template_idx : Int
deriving DecidableEq, Repr

/-- Per-video record of the comment ledger (`youtube_comment_state.json`),
reduced to the fields the decision and verification logic branches on.
`commented_epoch` embeds the parsed `commented_ts_utc` timestamp (`none`
for a missing or regex-rejected value); the various write-only audit
timestamps are elided. -/
structure CommentRec where
  video_id : String := ""
  video_url : String := ""
  manifest : String := ""
  comment_status : String := ""
  comment_id : String := ""
  commented_epoch : Option Int := none
  comment_attempts : Int := 0
  comment_plan : Option CommentPlan := none
  comment_verify_error : Option String := none
deriving DecidableEq, Repr

/-- The fresh decision derivation (`main`, else-branch): seed a generator
with the video id alone; `"comment"` with probability 0.90 (first draw),
template index by `randrange(len(TEMPLATES))` (next draw); with
`always_comment` the probability draw is short-circuited away. -/
def derivePlan (video_id : String) (always_comment : Bool) : CommentPlan :=
  let s := stable_rng video_id
  if always_comment then
    { decision := "comment", template_idx := ((rngDraw s % TEMPLATES_COUNT : Nat) : Int) }
  else
    let v1 := rngDraw s
    let v2 := rngDraw v1
    { decision := if v1 % 100 < 90 then "comment" else "skip"
      template_idx := ((v2 % TEMPLATES_COUNT : Nat) : Int) }

/-- The plan used by a run: a persisted decision (`"comment"`/`"skip"`) is
reused (its stored template index normalized modulo the template count);
otherwise a fresh plan is derived and will be persisted. -/
def planFor (recd : CommentRec) (video_id : String) (always_comment : Bool) : CommentPlan :=
  match recd.comment_plan with
  | some p =>
      if (p.decision = "comment" ∨ p.decision = "skip") ∧ ¬always_comment then
        { decision := p.decision, template_idx := p.template_idx % (TEMPLATES_COUNT : Int) }
      else derivePlan video_id always_comment
  | none => derivePlan video_id always_comment

/-- The decision-relevant step of one worker run on a record: compute the
jitter delay, compute the plan, persist the plan into the record
(`rec.update({..., "comment_plan": plan})`). -/
def decideStep (recd : CommentRec) (video_id today : String)
    (jitter_max : Nat) (always_comment : Bool) : CommentPlan × Nat × CommentRec :=
  let delay := jitterDelay video_id today jitter_max
  let plan := planFor recd video_id always_comment
  (plan, delay, { recd with comment_plan := some plan })

/-- One record's treatment by `verify_pass`: only
`commented_unverified`/`commented` records with a comment id and a parsed
timestamp are considered; nothing happens before `VERIFY_DELAY_SEC` has
elapsed; then the target is queried (`existsCheck`; `none` embeds the
query raising, which only records a verify error), a found comment is
promoted to `commented`, and a missing one becomes `not_found` with the
attempt counter reopened to `max(0, MAX_COMMENT_ATTEMPTS - 1)` when it had
reached the cap. -/
def verifyRecord (now : Int) (existsCheck : Option Bool) (recd : CommentRec) : CommentRec :=
  let status := strLower (strTrim recd.comment_status)
  if ¬(status = "commented_unverified" ∨ status = "commented") then recd
  else if strTrim recd.comment_id = "" then recd
  else
    match recd.commented_epoch with
    | none => recd
    | some t =>
        if now - t < VERIFY_DELAY_SEC then recd
        else
          match existsCheck with
          | none => { recd with comment_verify_error := some "verify query raised" }
          | some true =>
              if status ≠ "commented" then { recd with comment_status := "commented" } else recd
          | some false =>
              { recd with
                  comment_status := "not_found"
                  comment_attempts :=
                    if MAX_COMMENT_ATTEMPTS ≤ recd.comment_attempts then
                      max 0 (MAX_COMMENT_ATTEMPTS - 1)
                    else recd.comment_attempts }

/-- `verify_pass` over the whole `items` map. -/
def verify_pass (now : Int) (existsCheck : String → Option Bool)
    (items : List (String × CommentRec)) : List (String × CommentRec) :=
  items.map (fun kv => (kv.1, verifyRecord now (existsCheck kv.2.comment_id) kv.2))

/-- The eligibility test of `pick_eligible_video_run` on one record:
`commented`/`commented_unverified` are done, `skipped` is done unless the
retry-skipped override is set, and the attempt cap applies. -/
def eligibleForComment (recd : CommentRec) (retry_skipped : Bool) : Bool :=
  let status := strLower (strTrim recd.comment_status)
  if status = "commented" ∨ status = "commented_unverified" then false
  else if status = "skipped" ∧ ¬retry_skipped then false
  else decide (recd.comment_attempts < MAX_COMMENT_ATTEMPTS)

end Cw

namespace Js

/-- A JSON value, covering exactly the shapes the state stores serialize:
null, booleans, integers, strings, arrays and string-keyed objects. -/
inductive J where
  | null
  | bool (b : Bool)
  | num (n : Int)
  | str (s : String)
  | arr (xs : List J)
  | obj (kvs : List (String × J))

/-- The double-quote character. -/
def qChar : Char := Char.ofNat 34

/-- The backslash character. -/
def bsChar : Char := Char.ofNat 92

/-- The opening curly bracket. -/
def obChar : Char := Char.ofNat 123

/-- The closing curly bracket. -/
def cbChar : Char := Char.ofNat 125

/-- JSON string escaping as `json.dumps` performs it for the characters
that matter to invertibility: quote and backslash get a backslash prefix,
everything else passes through. -/
def escChar (c : Char) : List Char :=
  if c = qChar ∨ c = bsChar then [bsChar, c] else [c]

/-- Render a JSON string literal (quote, escaped body, quote). -/
def serStrChars (s : String) : List Char :=
  qChar :: ((s.data.flatMap escChar) ++ [qChar])

/-- Decimal digits of a natural number, most significant first. -/
def natChars (n : Nat) : List Char :=
  if _h : n < 10 then [Nat.digitChar n]
  else natChars (n / 10) ++ [Nat.digitChar (n % 10)]
decreasing_by exact Nat.div_lt_self (by omega) (by omega)

/-- Decimal rendering of an integer. -/
def intChars (n : Int) : List Char :=
  if n < 0 then '-' :: natChars n.natAbs else natChars n.toNat

/-- The four keyword characters of the `null` literal. -/
def nullChars : List Char := ['n', 'u', 'l', 'l']

/-- The keyword characters of the `true` literal. -/
def trueChars : List Char := ['t', 'r', 'u', 'e']

/-- The keyword characters of the `false` literal. -/
def falseChars : List Char := ['f', 'a', 'l', 's', 'e']

mutual

/-- Compact rendering of a JSON value; models the serialized form
`json.dumps(data, ensure_ascii=False)` produces (the `indent=2` whitespace
the scripts add is skipped by `json.loads` and immaterial to the parsed
value). -/
def ser : J → List Char
  | .null => nullChars
  | .bool true => trueChars
  | .bool false => falseChars
  | .num n => intChars n
  | .str s => serStrChars s
  | .arr [] => ['[', ']']
  | .arr (v :: vs) => '[' :: (ser v ++ serTail vs)
  | .obj [] => [obChar, cbChar]
  | .obj ((k, v) :: kvs) =>
      obChar :: (serStrChars k ++ (':' :: (ser v ++ serOTail kvs)))

/-- Rendering of the remaining array elements after the first. -/
def serTail : List J → List Char
  | [] => [']']
  | v :: vs => ',' :: (ser v ++ serTail vs)

/-- Rendering of the remaining object members after the first. -/
def serOTail : List (String × J) → List Char
  | [] => [cbChar]
  | (k, v) :: kvs => ',' :: (serStrChars k ++ (':' :: (ser v ++ serOTail kvs)))

end

mutual

/-- Fuel bound under which `parseVal` is proven to invert `ser`. -/
def sizeJ : J → Nat
  | .null => 1
  | .bool _ => 1
  | .num _ => 1
  | .str _ => 1
  | .arr [] => 1
  | .arr (v :: vs) => 1 + sizeJ v + sizeA vs
  | .obj [] => 1
  | .obj ((_, v) :: kvs) => 1 + sizeJ v + sizeO kvs

/-- Fuel bound for array tails. -/
def sizeA : List J → Nat
  | [] => 1
  | v :: vs => 1 + sizeJ v + sizeA vs

/-- Fuel bound for object tails. -/
def sizeO : List (String × J) → Nat
  | [] => 1
  | (_, v) :: kvs => 1 + sizeJ v + sizeO kvs

end

/-- Body of a JSON string literal after the opening quote: collect
characters up to the closing quote, mapping an escape pair to its second
character. -/
def parseStrBody : List Char → Option (List Char × List Char)
  | [] => none
  | c :: rest =>
      if c = qChar then some ([], rest)
      else if c = bsChar then
        match rest with
        | [] => none
        | e :: rest2 => (parseStrBody rest2).map (fun p => (e :: p.1, p.2))
      else (parseStrBody rest).map (fun p => (c :: p.1, p.2))

/-- Value of a decimal digit character. -/
def digitVal (c : Char) : Nat := c.toNat - 48

/-- Greedy decimal scan with accumulator. -/
def parseDigits : List Char → Nat → Nat × List Char
  | [], acc => (acc, [])
  | c :: cs, acc =>
      if c.isDigit then parseDigits cs (acc * 10 + digitVal c) else (acc, c :: cs)

/-- Does the input begin with a decimal digit? -/
def startsWithDigit : List Char → Bool
  | [] => false
  | c :: _ => c.isDigit

mutual

/-- A recursive-descent JSON reader over the compact rendering; together
with `ser` it models the external `json` module's `dumps`/`loads` pair.
`fuel` bounds the recursion depth (any `fuel ≥ sizeJ` of the rendered
value suffices, proven below). -/
def parseVal : Nat → List Char → Option (J × List Char)
  | 0, _ => none
  | _fuel + 1, [] => none
  | fuel + 1, c :: rest =>
      if c = 'n' then
        match rest with
        | 'u' :: 'l' :: 'l' :: r => some (.null, r)
        | _ => none
      else if c = 't' then
        match rest with
        | 'r' :: 'u' :: 'e' :: r => some (.bool true, r)
        | _ => none
      else if c = 'f' then
        match rest with
        | 'a' :: 'l' :: 's' :: 'e' :: r => some (.bool false, r)
        | _ => none
      else if c = qChar then
        (parseStrBody rest).map (fun p => (.str (String.mk p.1), p.2))
      else if c = '-' then
        if startsWithDigit rest then
          let pr := parseDigits rest 0
          some (.num (-(pr.1 : Int)), pr.2)
        else none
      else if c.isDigit then
        let pr := parseDigits (c :: rest) 0
        some (.num ((pr.1 : Int)), pr.2)
      else if c = '[' then
        match rest with
        | ']' :: r => some (.arr [], r)
        | _ =>
            match parseVal fuel rest with
            | some (v, r2) =>
                match parseArrTail fuel r2 with
                | some (vs, r3) => some (.arr (v :: vs), r3)
                | none => none
            | none => none
      else if c = obChar then
        match rest with
        | [] => none
        | r0 :: r =>
            if r0 = cbChar then some (.obj [], r)
            else if r0 = qChar then
              match parseStrBody r with
              | some (kcs, r1) =>
                  match r1 with
                  | ':' :: r2 =>
                      match parseVal fuel r2 with
                      | some (v, r3) =>
                          match parseObjTail fuel r3 with
                          | some (kvs, r4) => some (.obj ((String.mk kcs, v) :: kvs), r4)
                          | none => none
                      | none => none
                  | _ => none
              | none => none
            else none
      else none

/-- Remaining array elements: a closing bracket ends the array, a comma is
followed by the next element. -/
def parseArrTail : Nat → List Char → Option (List J × List Char)
  | 0, _ => none
  | _fuel + 1, [] => none
  | fuel + 1, c :: rest =>
      if c = ']' then some ([], rest)
      else if c = ',' then
        match parseVal fuel rest with
        | some (v, r2) =>
            match parseArrTail fuel r2 with
            | some (vs, r3) => some (v :: vs, r3)
            | none => none
        | none => none
      else none

/-- Remaining object members: a closing bracket ends the object, a comma is
followed by the next quoted key, colon and value. -/
def parseObjTail : Nat → List Char → Option (List (String × J) × List Char)
  | 0, _ => none
  | _fuel + 1, [] => none
  | fuel + 1, c :: rest =>
      if c = cbChar then some ([], rest)
      else if c = ',' then
        match rest with
        | [] => none
        | q :: r0 =>
            if q = qChar then
              match parseStrBody r0 with
              | some (kcs, r1) =>
                  match r1 with
                  | ':' :: r2 =>
                      match parseVal fuel r2 with
                      | some (v, r3) =>
                          match parseObjTail fuel r3 with
                          | some (kvs, r4) => some ((String.mk kcs, v) :: kvs, r4)
                          | none => none
                      | none => none
                  | _ => none
              | none => none
            else none
      else none

end

/-- Serialize a JSON value to the store file's text. -/
def dumps (v : J) : String := String.mk (ser v)

/-- Parse a whole store file; models `json.loads`. -/
def loads (s : String) : Option J :=
  match parseVal (s.data.length + 1) s.data with
  | some (v, []) => some v
  | _ => none

/-- The filesystem the state stores live in: a map from path to file
content (one directory; `mkdir(parents=True)` needs no model). -/
def FS := String → Option String

/-- `tmp.write_text(...)`: create or overwrite one file. -/
def fsWrite (fs : FS) (p c : String) : FS :=
  fun q => if q = p then some c else fs q

/-- `tmp.replace(path)`: the atomic POSIX rename, overwriting `dst` with
`src`'s content and removing `src` in one step. -/
def fsRename (fs : FS) (src dst : String) : FS :=
  fun q => if q = dst then fs src else if q = src then none else fs q

/-- The temp path `path.with_suffix(path.suffix + ".tmp")` computes: the
final suffix is replaced by itself plus `".tmp"`, i.e. `".tmp"` is
appended. -/
def tmpPath (path : String) : String := path ++ ".tmp"

/-- `save_json_atomic` of `youtube-post/post_one_video.py`: serialize the
store, write it to the temp file, then atomically rename over the target. -/
def save_json_atomic (fs : FS) (path : String) (v : J) : FS :=
  fsRename (fsWrite fs (tmpPath path) (dumps v)) (tmpPath path) path

/-- A crash after the temp write but before the rename leaves exactly the
temp write applied. -/
def crash_mid_write (fs : FS) (path : String) (v : J) : FS :=
  fsWrite fs (tmpPath path) (dumps v)

/-- `load_json`: read the file and parse it. -/
def load_json (fs : FS) (path : String) : Option J :=
  (fs path).bind loads

end Js

namespace Yt

/-- The ledger's recorded result for an identity (`none` when the identity
has no record or the record has no result yet). -/
def recordedResult (state : State) (url : String) : Option String :=
  match lookupRec state.items url with
  | some r => r.result
  | none => none

/-- The ledger's attempt counter for an identity (0 when absent, exactly
as `int(rec.get("attempts") or 0)` reads it). -/
def attemptsOf (state : State) (url : String) : Int :=
  match lookupRec state.items url with
  | some r => r.attempts
  | none => 0

end Yt

namespace Fb

/-- `MAX_UPLOAD_ATTEMPTS` with its default env value `"3"`. -/
def MAX_UPLOAD_ATTEMPTS : Nat := 3

/-- `UPLOAD_RETRY_DELAYS_SEC` as module init computes it from the default
env value `"60,180,600"`. -/
def UPLOAD_RETRY_DELAYS_SEC : List Int := parse_retry_delays "60,180,600"

/-- The recorded result for an identity, read off an `items` map. -/
def resultOfItems (stItems : List (String × ReelRec)) (url : String) : Option String :=
  match lookupRec stItems url with
  | some r => r.result
  | none => none

/-- The ledger's recorded result for an identity. -/
def recordedResult (state : State) (url : String) : Option String :=
  resultOfItems state.items url

/-- The ledger's attempt counter for an identity. -/
def attemptsOf (state : State) (url : String) : Int :=
  match lookupRec state.items url with
  | some r => r.attempts
  | none => 0

/-- The daily-advanced manifest index `manifest_cycle_for_today` stores on
a day change: `(idx + 1) % len(order)` when a previous index `≥ 0` exists,
else `0`. -/
def advancedIndex (r : Rotation) : Int :=
  if 0 ≤ r.index.getD (-1) then (r.index.getD (-1) + 1) % (MANIFEST_FILES_ORDER.length : Int)
  else 0

/-- Are the submitted chunk ranges contiguous from offset `o` (each chunk
non-empty and starting where the previous one ended)? -/
def contiguousFrom (o : Nat) : List (Nat × Nat) → Bool
  | [] => true
  | (a, l) :: rest => decide (a = o) && decide (0 < l) && contiguousFrom (a + l) rest

/-- Total number of bytes covered by the submitted chunk ranges. -/
def chunksLen (chunks : List (Nat × Nat)) : Nat :=
  (chunks.map Prod.snd).sum

end Fb

namespace Pin

/-- The ledger's recorded result for an identity. -/
def recordedResult (state : State) (url : String) : Option String :=
  match lookupRec state.items url with
  | some r => r.result
  | none => none

end Pin

/-- A success-recorded store used by several witnesses. -/
def wStateA : Yt.State :=
  { rotation := {}
    items := [("u1", { video_url := "u1", result := some "success", attempts := 1 })]
    runs := [] }

/-- A manifest item whose identity is the success-recorded `"u1"`. -/
def wItemA : Yt.VideoItem :=
  { manifest_name := "drywall.json", manifest_action := "", manifest_tag := ""
    video_url := "u1", filename := "f1", title := "T1", description := ""
    destination_url := "", alt := "", status := "" }

/-- A fresh manifest item `"u2"` with no ledger record. -/
def wItemB : Yt.VideoItem :=
  { manifest_name := "drywall.json", manifest_action := "", manifest_tag := ""
    video_url := "u2", filename := "f2", title := "T2", description := ""
    destination_url := "", alt := "", status := "" }

/-- A fresh Facebook Reels manifest entry `"u3"`. -/
def wRawC : Fb.RawItem :=
  { video_url := "u3", filename := "f3", title := "T3", description := "" }

/-- The validated item `Fb.ensure_required_fields` makes of `wRawC`. -/
def wItemC : Fb.ReelItem :=
  { manifest_name := "drywall.json", video_url := "u3", filename := "f3"
    title := "T3", description := "" }

/-!
Theorems.  Each claim theorem carries the claim id in its doc comment;
helper lemmas are shared.
-/

theorem lookupRec_setRec_self {α : Type} (l : List (String × α)) (k : String) (v : α) :
    lookupRec (setRec l k v) k = some v := by
  induction l with
  | nil => simp [setRec, lookupRec]
  | cons hd tl ih =>
      obtain ⟨k0, v0⟩ := hd
      by_cases h : k0 = k
      · simp [setRec, h, lookupRec]
      · simp [setRec, h, lookupRec, ih]

theorem lookupRec_setRec_ne {α : Type} (l : List (String × α)) (k k' : String) (v : α)
    (h : k ≠ k') : lookupRec (setRec l k v) k' = lookupRec l k' := by
  induction l with
  | nil => simp [setRec, lookupRec, h]
  | cons hd tl ih =>
      obtain ⟨k0, v0⟩ := hd
      by_cases hk : k0 = k
      · subst hk
        simp [setRec, lookupRec, h]
      · simp [setRec, hk, lookupRec, ih]

theorem yt_eligible_not_success (st : Yt.State) (it : Yt.VideoItem)
    (h : Yt.eligible st it = true) : Yt.recordedResult st it.video_url ≠ some "success" := by
  intro hs
  unfold Yt.recordedResult at hs
  unfold Yt.eligible at h
  cases hl : lookupRec st.items it.video_url with
  | none => rw [hl] at hs; simp at hs
  | some r =>
      rw [hl] at hs
      dsimp only at hs
      have hskip : Yt.should_skip_item st it = true := by
        unfold Yt.should_skip_item
        rw [hl]
        simp [hs]
      rw [hskip] at h
      simp at h

theorem yt_pickScan_eligible (st : Yt.State) (idx : Int) (items : List Yt.VideoItem)
    (it : Yt.VideoItem) (h : Yt.pickScan st idx items = some it) :
    Yt.eligible st it = true := by
  unfold Yt.pickScan at h
  revert h
  cases hf : (((List.range MANIFEST_FILES_ORDER.length).map
      (fun i => MANIFEST_FILES_ORDER.getD ((idx + (i : Int)) % (MANIFEST_FILES_ORDER.length : Int)).toNat "")).flatMap
      (fun m => items.filter (fun x => decide (x.manifest_name = m)))).find? (Yt.eligible st) with
  | some a =>
      intro h
      simp only [hf] at h
      cases h
      exact List.find?_some hf
  | none =>
      intro h
      simp only [hf] at h
      exact List.find?_some h

theorem fb_scanRaws_not_success (stItems : List (String × Fb.ReelRec)) (m : String)
    (raws : List Fb.RawItem) (it : Fb.ReelItem)
    (h : Fb.scanRaws stItems m raws = .ok (some it)) :
    Fb.resultOfItems stItems it.video_url ≠ some "success" := by
  induction raws with
  | nil => simp [Fb.scanRaws] at h
  | cons raw rest ih =>
      unfold Fb.scanRaws at h
      cases he : Fb.ensure_required_fields raw m with
      | error e => rw [he] at h; simp at h
      | ok it0 =>
          rw [he] at h
          dsimp only at h
          split at h
          · exact ih h
          · split at h
            · exact ih h
            · rename_i hres _hatt
              have : it0 = it := by
                simpa using h
              subst this
              unfold Fb.resultOfItems
              exact hres

theorem fb_scanManifests_not_success (stItems : List (String × Fb.ReelRec))
    (ml : List (String × List Fb.RawItem)) (it : Fb.ReelItem)
    (h : Fb.scanManifests stItems ml = .ok (some it)) :
    Fb.resultOfItems stItems it.video_url ≠ some "success" := by
  induction ml with
  | nil => simp [Fb.scanManifests] at h
  | cons pair rest ih =>
      obtain ⟨n, raws⟩ := pair
      unfold Fb.scanManifests at h
      cases hs : Fb.scanRaws stItems n raws with
      | error e => rw [hs] at h; simp at h
      | ok o =>
          cases o with
          | some it0 =>
              rw [hs] at h
              have : it0 = it := by simpa using h
              subst this
              exact fb_scanRaws_not_success stItems n raws it0 hs
          | none =>
              rw [hs] at h
              exact ih h

/-- C1: once an identity's ledger record says `result = success`, the Item
Store's selection skips it (`should_skip_item` is true, and neither
pipeline's `pick_next_item` can ever return it), so no later run attempts
a transfer for it and its record — in particular its success result — is
left untouched by any later run. -/
theorem C1_success_is_terminal :
    (∀ (st : Yt.State) (it : Yt.VideoItem),
        Yt.recordedResult st it.video_url = some "success" →
        Yt.should_skip_item st it = true) ∧
    (∀ (today : String) (st : Yt.State) (items : List Yt.VideoItem) (it : Yt.VideoItem),
        (Yt.pick_next_item today st items).2 = some it →
        Yt.recordedResult st it.video_url ≠ some "success") ∧
    (∀ (today : String) (manifests : List (String × List Fb.RawItem)) (st : Fb.State)
        (it : Fb.ReelItem),
        (Fb.pick_next_item today manifests st).2 = .ok (some it) →
        Fb.recordedResult st it.video_url ≠ some "success") ∧
    (∀ (today : String) (items : List Yt.VideoItem) (disk : Yt.State) (outcome : Yt.Outcome)
        (url : String),
        Yt.recordedResult disk url = some "success" →
        lookupRec (Yt.mainPersisted today items disk outcome).items url =
          lookupRec disk.items url) := by
  refine ⟨?_, ?_, ?_, ?_⟩
  · intro st it hs
    unfold Yt.recordedResult at hs
    unfold Yt.should_skip_item
    cases hl : lookupRec st.items it.video_url with
    | none => rw [hl] at hs; simp at hs
    | some r =>
        rw [hl] at hs
        dsimp only at hs
        simp [hs]
  · intro today st items it h
    have hsc : Yt.pickScan { st with rotation := Yt.rotatedRotation today st.rotation }
        (Yt.activeIndex today st.rotation) items = some it := h
    have helig := yt_pickScan_eligible _ _ _ _ hsc
    exact yt_eligible_not_success _ _ helig
  · intro today manifests st it h
    unfold Fb.pick_next_item at h
    dsimp only at h
    split at h
    · simp at h
    · have := fb_scanManifests_not_success _ _ _ h
      exact this
  · intro today items disk outcome url hs
    unfold Yt.mainPersisted
    dsimp only
    cases hp : (Yt.pick_next_item today disk items).2 with
    | none => rfl
    | some item =>
        have hne : item.video_url ≠ url := by
          intro he
          have helig := yt_pickScan_eligible _ _ _ _ hp
          have := yt_eligible_not_success _ _ helig
          rw [he] at this
          exact this hs
        cases outcome with
        | success vid =>
            unfold Yt.record_attempt
            dsimp only
            exact lookupRec_setRec_ne _ _ _ _ hne
        | failed err =>
            unfold Yt.record_attempt
            dsimp only
            exact lookupRec_setRec_ne _ _ _ _ hne
        | earlyError => rfl



theorem C1_success_is_terminal_witness :
    Yt.should_skip_item wStateA wItemA = true ∧
    Yt.recordedResult ({} : Yt.State) wItemB.video_url ≠ some "success" ∧
    Fb.recordedResult ({} : Fb.State) wItemC.video_url ≠ some "success" ∧
    lookupRec (Yt.mainPersisted "2026-10-12" [wItemA] wStateA (.success "x")).items "u1" =
      lookupRec wStateA.items "u1" := by
  refine ⟨?_, ?_, ?_, ?_⟩
  · exact C1_success_is_terminal.1 wStateA wItemA (by decide)
  · exact C1_success_is_terminal.2.1 "2026-10-12" ({} : Yt.State) [wItemB] wItemB (by decide)
  · exact C1_success_is_terminal.2.2.1 "2026-10-12" [("drywall.json", [wRawC])] ({} : Fb.State)
      wItemC (by rfl)
  · exact C1_success_is_terminal.2.2.2 "2026-10-12" [wItemA] wStateA (.success "x") "u1" (by decide)

/-- C2: every `record_attempt` / `update_state_for_attempt` call leaves the
identity's `attempts` counter at exactly its old value plus one (hence
strictly greater), touches no other identity's record, and the selection
step mutates no `attempts` at all — so `attempts` never decreases across
runs. -/
theorem C2_attempts_monotone :
    (∀ (st : Yt.State) (item : Yt.VideoItem) (result vid err : String),
        Yt.attemptsOf (Yt.record_attempt st item result vid err) item.video_url =
          Yt.attemptsOf st item.video_url + 1 ∧
        Yt.attemptsOf st item.video_url <
          Yt.attemptsOf (Yt.record_attempt st item result vid err) item.video_url) ∧
    (∀ (st : Yt.State) (item : Yt.VideoItem) (result vid err url : String),
        url ≠ item.video_url →
        lookupRec (Yt.record_attempt st item result vid err).items url =
          lookupRec st.items url) ∧
    (∀ (st : Fb.State) (item : Fb.ReelItem) (result : String) (vid err : Option String),
        Fb.attemptsOf (Fb.update_state_for_attempt st item result vid err) item.video_url =
          Fb.attemptsOf st item.video_url + 1 ∧
        Fb.attemptsOf st item.video_url <
          Fb.attemptsOf (Fb.update_state_for_attempt st item result vid err) item.video_url) ∧
    (∀ (st : Fb.State) (item : Fb.ReelItem) (result : String) (vid err : Option String)
        (url : String),
        url ≠ item.video_url →
        lookupRec (Fb.update_state_for_attempt st item result vid err).items url =
          lookupRec st.items url) ∧
    (∀ (today : String) (st : Yt.State) (items : List Yt.VideoItem),
        (Yt.pick_next_item today st items).1.items = st.items) ∧
    (∀ (today : String) (manifests : List (String × List Fb.RawItem)) (st : Fb.State),
        (Fb.pick_next_item today manifests st).1.items = st.items) := by
  refine ⟨?_, ?_, ?_, ?_, ?_, ?_⟩
  · intro st item result vid err
    have he : Yt.attemptsOf (Yt.record_attempt st item result vid err) item.video_url =
        Yt.attemptsOf st item.video_url + 1 := by
      unfold Yt.attemptsOf Yt.record_attempt
      dsimp only
      rw [lookupRec_setRec_self]
      cases hl : lookupRec st.items item.video_url with
      | none => simp [hl]
      | some r => simp [hl]
    exact ⟨he, by rw [he]; omega⟩
  · intro st item result vid err url hne
    unfold Yt.record_attempt
    dsimp only
    exact lookupRec_setRec_ne _ _ _ _ (fun h => hne h.symm)
  · intro st item result vid err
    have he : Fb.attemptsOf (Fb.update_state_for_attempt st item result vid err) item.video_url =
        Fb.attemptsOf st item.video_url + 1 := by
      unfold Fb.attemptsOf Fb.update_state_for_attempt
      dsimp only
      rw [lookupRec_setRec_self]
      cases hl : lookupRec st.items item.video_url with
      | none => simp [hl]
      | some r => simp [hl]
    exact ⟨he, by rw [he]; omega⟩
  · intro st item result vid err url hne
    unfold Fb.update_state_for_attempt
    dsimp only
    exact lookupRec_setRec_ne _ _ _ _ (fun h => hne h.symm)
  · intro today st items
    rfl
  · intro today manifests st
    unfold Fb.pick_next_item
    dsimp only
    split <;> rfl

theorem C2_attempts_monotone_witness :
    (Yt.attemptsOf (Yt.record_attempt wStateA wItemA "failed" "" "e") "u1" =
        Yt.attemptsOf wStateA "u1" + 1 ∧
      Yt.attemptsOf wStateA "u1" <
        Yt.attemptsOf (Yt.record_attempt wStateA wItemA "failed" "" "e") "u1") ∧
    lookupRec (Yt.record_attempt wStateA wItemA "failed" "" "e").items "other" =
      lookupRec wStateA.items "other" ∧
    (Fb.attemptsOf (Fb.update_state_for_attempt ({} : Fb.State) wItemC "success" (some "v") none)
        "u3" = Fb.attemptsOf ({} : Fb.State) "u3" + 1) ∧
    lookupRec (Fb.update_state_for_attempt ({} : Fb.State) wItemC "success" (some "v") none).items
        "other" = lookupRec ({} : Fb.State).items "other" := by
  refine ⟨?_, ?_, ?_, ?_⟩
  · exact C2_attempts_monotone.1 wStateA wItemA "failed" "" "e"
  · exact C2_attempts_monotone.2.1 wStateA wItemA "failed" "" "e" "other" (by decide)
  · exact (C2_attempts_monotone.2.2.1 ({} : Fb.State) wItemC "success" (some "v") none).1
  · exact C2_attempts_monotone.2.2.2.1 ({} : Fb.State) wItemC "success" (some "v") none "other"
      (by decide)

theorem parse_retry_delays_ne_nil (raw : String) : Fb.parse_retry_delays raw ≠ [] := by
  unfold Fb.parse_retry_delays
  dsimp only
  split
  · simp
  · assumption

theorem retryDelayStep_pos (acc : List Int) (part : String) (w : Int)
    (hacc : ∀ u ∈ acc, 0 < u) (hw : w ∈ Fb.retryDelayStep acc part) : 0 < w := by
  unfold Fb.retryDelayStep at hw
  dsimp only at hw
  by_cases h1 : strTrim part = ""
  · rw [if_pos h1] at hw
    exact hacc w hw
  · rw [if_neg h1] at hw
    cases h2 : Fb.pyInt (strTrim part) with
    | none => rw [h2] at hw; exact hacc w hw
    | some x =>
        rw [h2] at hw
        dsimp only at hw
        by_cases h3 : 0 < x
        · rw [if_pos h3] at hw
          rcases List.mem_append.mp hw with h | h
          · exact hacc w h
          · simp at h
            omega
        · rw [if_neg h3] at hw
          exact hacc w hw

theorem parse_retry_delays_pos (raw : String) (v : Int)
    (hv : v ∈ Fb.parse_retry_delays raw) : 0 < v := by
  unfold Fb.parse_retry_delays at hv
  dsimp only at hv
  split at hv
  · simp only [List.mem_cons, List.not_mem_nil, or_false] at hv
    rcases hv with h | h | h <;> omega
  · revert hv
    have haux : ∀ (parts : List String) (acc : List Int), (∀ w ∈ acc, 0 < w) →
        v ∈ parts.foldl Fb.retryDelayStep acc → 0 < v := by
      intro parts
      induction parts with
      | nil =>
          intro acc hacc hv
          simp only [List.foldl_nil] at hv
          exact hacc v hv
      | cons p rest ih =>
          intro acc hacc hv
          simp only [List.foldl_cons] at hv
          refine ih _ ?_ hv
          intro w hw
          exact retryDelayStep_pos acc p w hacc hw
    intro hv
    exact haux _ [] (by simp) hv

/-- C10: `_parse_retry_delays` always yields a non-empty list of strictly
positive delays (falling back to `[60, 180, 600]`), so the retry loop's
delay lookup index `min(attempt - 1, len - 1)` is in bounds for every
attempt number ≥ 1. -/
theorem C10_retry_delays_safe :
    (∀ raw : String, Fb.parse_retry_delays raw ≠ []) ∧
    (∀ (raw : String) (v : Int), v ∈ Fb.parse_retry_delays raw → 0 < v) ∧
    (∀ (raw : String) (attempt : Nat), 1 ≤ attempt →
        min (attempt - 1) ((Fb.parse_retry_delays raw).length - 1) <
          (Fb.parse_retry_delays raw).length) := by
  refine ⟨parse_retry_delays_ne_nil, parse_retry_delays_pos, ?_⟩
  intro raw attempt _h
  have hlen : 0 < (Fb.parse_retry_delays raw).length :=
    List.length_pos.mpr (parse_retry_delays_ne_nil raw)
  exact Nat.lt_of_le_of_lt (Nat.min_le_right _ _) (Nat.sub_lt hlen (by omega))

theorem C10_retry_delays_safe_witness :
    Fb.parse_retry_delays "" ≠ [] ∧
    (0 : Int) < 60 ∧
    min (5 - 1) ((Fb.parse_retry_delays " ,abc,-7").length - 1) <
      (Fb.parse_retry_delays " ,abc,-7").length := by
  refine ⟨C10_retry_delays_safe.1 "", ?_, ?_⟩
  · exact C10_retry_delays_safe.2.1 " ,abc,-7" 60 (by decide)
  · exact C10_retry_delays_safe.2.2 " ,abc,-7" 5 (by decide)

/-- C4: the upload retry loop aborts immediately — no sleep, regardless of
how many attempts remain — when `_is_retriable_upload_error` rejects the
failing attempt's error (e.g. HTTP 403), and on a retriable error (HTTP
429/5xx, timeout/reset, processing-failed) on a non-final attempt it
sleeps the first scheduled delay and retries. -/
theorem C4_retry_classifier_gates_loop :
    (∀ (e : String) (results : Nat → Option String) (delays : List Int) (remaining : Nat),
        Fb.is_retriable_upload_error e = false → results 1 = some e →
        Fb.uploadRetryGo delays results remaining 1 = ([], .error e)) ∧
    (∀ (e : String) (results : Nat → Option String) (delays : List Int) (total : Nat),
        Fb.is_retriable_upload_error e = true → results 1 = some e → results 2 = none →
        2 ≤ total →
        Fb.uploadWithRetry total delays results = ([delays.getD 0 0], .ok ())) := by
  constructor
  · intro e results delays remaining hret hres
    unfold Fb.uploadRetryGo
    rw [hres]
    cases remaining with
    | zero => rfl
    | succ r => dsimp only; rw [hret]; rfl
  · intro e results delays total hret hres1 hres2 htot
    obtain ⟨k, hk⟩ : ∃ k, total - 1 = k + 1 := ⟨total - 2, by omega⟩
    unfold Fb.uploadWithRetry
    rw [hk]
    unfold Fb.uploadRetryGo
    rw [hres1]
    dsimp only
    rw [hret]
    unfold Fb.uploadRetryGo
    rw [hres2]
    simp

theorem C4_retry_classifier_gates_loop_witness :
    Fb.uploadRetryGo Fb.UPLOAD_RETRY_DELAYS_SEC
        (fun n => if n = 1 then some "HTTP 403: Forbidden" else none) 2 1 =
      ([], .error "HTTP 403: Forbidden") ∧
    Fb.uploadWithRetry 3 Fb.UPLOAD_RETRY_DELAYS_SEC
        (fun n => if n = 1 then some "HTTP 503: Service Unavailable" else none) =
      ([Fb.UPLOAD_RETRY_DELAYS_SEC.getD 0 0], .ok ()) := by
  constructor
  · exact C4_retry_classifier_gates_loop.1 "HTTP 403: Forbidden"
      (fun n => if n = 1 then some "HTTP 403: Forbidden" else none)
      Fb.UPLOAD_RETRY_DELAYS_SEC 2 (by decide) (by decide)
  · exact C4_retry_classifier_gates_loop.2 "HTTP 503: Service Unavailable"
      (fun n => if n = 1 then some "HTTP 503: Service Unavailable" else none)
      Fb.UPLOAD_RETRY_DELAYS_SEC 3 (by decide) (by decide) (by decide) (by decide)

theorem uploadChunks_cover_aux (L c : Nat) (resp : Nat → Option Nat)
    (hc : 0 < c) (hresp : ∀ j, resp j = none) :
    ∀ (fuel i off : Nat), off ≤ L → L - off ≤ fuel →
      Fb.contiguousFrom off (Fb.uploadChunksGo L c resp fuel i off) = true ∧
      off + Fb.chunksLen (Fb.uploadChunksGo L c resp fuel i off) = L := by
  intro fuel
  induction fuel with
  | zero =>
      intro i off hoff hfuel
      constructor
      · rfl
      · unfold Fb.uploadChunksGo Fb.chunksLen
        simp
        omega
  | succ n ih =>
      intro i off hoff hfuel
      by_cases hlt : off < L
      · have hmin : 0 < min c (L - off) := Nat.lt_min.mpr ⟨hc, by omega⟩
        have hstep : Fb.uploadChunksGo L c resp (n + 1) i off =
            (off, min c (L - off)) :: Fb.uploadChunksGo L c resp n (i + 1) (off + min c (L - off)) := by
          conv_lhs => rw [Fb.uploadChunksGo]
          rw [if_pos hlt]
          dsimp only
          rw [if_neg (by omega), hresp i]
        have hrec := ih (i + 1) (off + min c (L - off))
          (by have := Nat.min_le_right c (L - off); omega)
          (by have := Nat.min_le_right c (L - off); omega)
        rw [hstep]
        constructor
        · unfold Fb.contiguousFrom
          rw [hrec.1]
          simp [hmin]
        · unfold Fb.chunksLen at hrec ⊢
          simp only [List.map_cons, List.sum_cons]
          omega
      · have hstop : Fb.uploadChunksGo L c resp (n + 1) i off = [] := by
          unfold Fb.uploadChunksGo
          rw [if_neg hlt]
        rw [hstop]
        refine ⟨rfl, ?_⟩
        unfold Fb.chunksLen
        simp
        omega

/-- C5: in resumable mode the upload loop advances from the server's
acknowledged `end_offset` when the response carries one, otherwise by the
local chunk length; and when every response omits the offset, the
submitted byte ranges are contiguous from 0 and cover exactly the whole
payload length before the loop terminates. -/
theorem C5_chunked_upload_covers_payload :
    (∀ (L c : Nat) (resp : Nat → Option Nat) (fuel i off eo : Nat),
        off < L → 0 < c → resp i = some eo →
        Fb.uploadChunksGo L c resp (fuel + 1) i off =
          (off, min c (L - off)) :: Fb.uploadChunksGo L c resp fuel (i + 1) eo) ∧
    (∀ (L c : Nat) (resp : Nat → Option Nat), 0 < c → (∀ j, resp j = none) →
        Fb.contiguousFrom 0 (Fb.upload_binary_video L c resp (L + 1)) = true ∧
        Fb.chunksLen (Fb.upload_binary_video L c resp (L + 1)) = L) := by
  constructor
  · intro L c resp fuel i off eo hlt hc hresp
    conv_lhs => rw [Fb.uploadChunksGo]
    rw [if_pos hlt]
    dsimp only
    have hmin : 0 < min c (L - off) := Nat.lt_min.mpr ⟨hc, by omega⟩
    rw [if_neg (by omega), hresp]
  · intro L c resp hc hresp
    have := uploadChunks_cover_aux L c resp hc hresp (L + 1) 0 0 (by omega) (by omega)
    unfold Fb.upload_binary_video
    exact ⟨this.1, by have := this.2; omega⟩

theorem C5_chunked_upload_covers_payload_witness :
    Fb.uploadChunksGo 10 4 (fun _ => some 7) (3 + 1) 0 0 =
      (0, min 4 (10 - 0)) :: Fb.uploadChunksGo 10 4 (fun _ => some 7) 3 1 7 ∧
    Fb.contiguousFrom 0 (Fb.upload_binary_video 10 4 (fun _ => none) (10 + 1)) = true ∧
    Fb.chunksLen (Fb.upload_binary_video 10 4 (fun _ => none) (10 + 1)) = 10 := by
  refine ⟨?_, ?_⟩
  · exact C5_chunked_upload_covers_payload.1 10 4 (fun _ => some 7) 3 0 0 7
      (by decide) (by decide) rfl
  · exact C5_chunked_upload_covers_payload.2 10 4 (fun _ => none) (by decide) (fun _ => rfl)

theorem derivePlan_decision_mem (v : String) :
    (Cw.derivePlan v false).decision = "comment" ∨ (Cw.derivePlan v false).decision = "skip" := by
  unfold Cw.derivePlan
  by_cases hd : Cw.rngDraw (Cw.stable_rng v) % 100 < 90
  · left; simp [hd]
  · right; simp [hd]

theorem derivePlan_idx_range (v : String) :
    0 ≤ (Cw.derivePlan v false).template_idx ∧
    (Cw.derivePlan v false).template_idx < (Cw.TEMPLATES_COUNT : Int) := by
  unfold Cw.derivePlan
  have h25 : 0 < Cw.TEMPLATES_COUNT := by decide
  constructor
  · simp only [Bool.false_eq_true, if_false]
    exact Int.natCast_nonneg _
  · simp only [Bool.false_eq_true, if_false]
    exact_mod_cast Nat.mod_lt _ h25

theorem planFor_decision_mem (recd : Cw.CommentRec) (v : String) :
    (Cw.planFor recd v false).decision = "comment" ∨
    (Cw.planFor recd v false).decision = "skip" := by
  unfold Cw.planFor
  cases recd.comment_plan with
  | none => exact derivePlan_decision_mem v
  | some p0 =>
      dsimp only
      split
      · rename_i hg
        exact hg.1
      · exact derivePlan_decision_mem v

theorem planFor_idx_range (recd : Cw.CommentRec) (v : String) :
    0 ≤ (Cw.planFor recd v false).template_idx ∧
    (Cw.planFor recd v false).template_idx < (Cw.TEMPLATES_COUNT : Int) := by
  have h25 : (0 : Int) < (Cw.TEMPLATES_COUNT : Int) := by decide
  unfold Cw.planFor
  cases recd.comment_plan with
  | none => exact derivePlan_idx_range v
  | some p0 =>
      dsimp only
      split
      · exact ⟨Int.emod_nonneg _ (by omega), Int.emod_lt_of_pos _ h25⟩
      · exact derivePlan_idx_range v

theorem planFor_persisted (recd : Cw.CommentRec) (v : String) :
    Cw.planFor { recd with comment_plan := some (Cw.planFor recd v false) } v false =
      Cw.planFor recd v false := by
  have hmem := planFor_decision_mem recd v
  have hrange := planFor_idx_range recd v
  have hstep : Cw.planFor { recd with comment_plan := some (Cw.planFor recd v false) } v false =
      if ((Cw.planFor recd v false).decision = "comment" ∨
          (Cw.planFor recd v false).decision = "skip") ∧ ¬(false = true) then
        { decision := (Cw.planFor recd v false).decision
          template_idx := (Cw.planFor recd v false).template_idx % (Cw.TEMPLATES_COUNT : Int) }
      else Cw.derivePlan v false := rfl
  rw [hstep, if_pos ⟨hmem, by simp⟩,
    Int.emod_eq_of_lt hrange.1 hrange.2]

/-- C7: for the same identity, repeated worker invocations are
deterministic — the second invocation, run on the record the first one
persisted, reuses the persisted comment/skip decision and template index
unchanged, and the jitter delay (a pure function of identity and calendar
day, independent of the record) is identical as well. -/
theorem C7_engagement_deterministic :
    ∀ (recd : Cw.CommentRec) (video_id today : String) (jitter_max : Nat),
      (Cw.decideStep ((Cw.decideStep recd video_id today jitter_max false).2.2)
          video_id today jitter_max false).1 =
        (Cw.decideStep recd video_id today jitter_max false).1 ∧
      (Cw.decideStep ((Cw.decideStep recd video_id today jitter_max false).2.2)
          video_id today jitter_max false).2.1 =
        (Cw.decideStep recd video_id today jitter_max false).2.1 ∧
      (∀ other : Cw.CommentRec,
          (Cw.decideStep other video_id today jitter_max false).2.1 =
            Cw.jitterDelay video_id today jitter_max) := by
  intro recd video_id today jitter_max
  refine ⟨?_, rfl, fun _ => rfl⟩
  unfold Cw.decideStep
  dsimp only
  exact planFor_persisted recd video_id

/-- C8 counterexample: the verification delay in the code is
`VERIFY_DELAY_SEC = 180` seconds, not 30 minutes — a verification pass 29
minutes (1740 s) after posting is NOT a no-op: with the comment absent it
already flips the record to `not_found`. -/
theorem C8_verify_at_29_minutes_not_noop :
    (Cw.verifyRecord 1740 (some false)
        { comment_status := "commented_unverified", comment_id := "abc"
          commented_epoch := some 0, comment_attempts := 2 }).comment_status = "not_found" ∧
    Cw.verifyRecord 1740 (some false)
        { comment_status := "commented_unverified", comment_id := "abc"
          commented_epoch := some 0, comment_attempts := 2 } ≠
      { comment_status := "commented_unverified", comment_id := "abc"
        commented_epoch := some 0, comment_attempts := 2 } := by
  constructor
  · decide
  · decide

/-- C8 (amended): the verification pass is a no-op while less than
`VERIFY_DELAY_SEC = 180` seconds (not 30 minutes) have elapsed since
posting; once that delay has elapsed the target is queried, and an absent
comment flips the record to `not_found` and reopens the attempt counter to
`MAX_COMMENT_ATTEMPTS - 1` when the cap had been reached, so the record is
eligible for exactly one more posting retry. -/
theorem C8_verify_delay_and_reopen (now t : Int) (ex : Option Bool) (recd : Cw.CommentRec)
    (h1 : recd.comment_status = "commented_unverified")
    (h2 : strTrim recd.comment_id ≠ "")
    (h3 : recd.commented_epoch = some t) :
    (now - t < Cw.VERIFY_DELAY_SEC → Cw.verifyRecord now ex recd = recd) ∧
    (Cw.VERIFY_DELAY_SEC ≤ now - t → ex = some false →
      (Cw.verifyRecord now ex recd).comment_status = "not_found" ∧
      (Cw.verifyRecord now ex recd).comment_attempts =
        (if Cw.MAX_COMMENT_ATTEMPTS ≤ recd.comment_attempts then Cw.MAX_COMMENT_ATTEMPTS - 1
          else recd.comment_attempts) ∧
      Cw.eligibleForComment (Cw.verifyRecord now ex recd) false = true) := by
  have hst : strLower (strTrim recd.comment_status) = "commented_unverified" := by
    rw [h1]; decide
  have hv : Cw.verifyRecord now ex recd =
      (if now - t < Cw.VERIFY_DELAY_SEC then recd
        else
          match ex with
          | none => { recd with comment_verify_error := some "verify query raised" }
          | some true =>
              if strLower (strTrim recd.comment_status) ≠ "commented" then
                { recd with comment_status := "commented" }
              else recd
          | some false =>
              { recd with
                  comment_status := "not_found"
                  comment_attempts :=
                    if Cw.MAX_COMMENT_ATTEMPTS ≤ recd.comment_attempts then
                      max 0 (Cw.MAX_COMMENT_ATTEMPTS - 1)
                    else recd.comment_attempts }) := by
    unfold Cw.verifyRecord
    rw [hst]
    rw [if_neg (by simp)]
    rw [if_neg h2]
    rw [h3]
  constructor
  · intro hlt
    rw [hv, if_pos hlt]
  · intro hge hex
    rw [hv, if_neg (by omega), hex]
    dsimp only
    refine ⟨rfl, ?_, ?_⟩
    · by_cases hcap : Cw.MAX_COMMENT_ATTEMPTS ≤ recd.comment_attempts
      · rw [if_pos hcap, if_pos hcap]
        decide
      · rw [if_neg hcap, if_neg hcap]
    · unfold Cw.eligibleForComment
      dsimp only
      rw [if_neg (by decide)]
      rw [if_neg (by decide)]
      by_cases hcap : Cw.MAX_COMMENT_ATTEMPTS ≤ recd.comment_attempts
      · rw [if_pos hcap]
        decide
      · rw [if_neg hcap]
        have h2' : recd.comment_attempts < Cw.MAX_COMMENT_ATTEMPTS := by
          unfold Cw.MAX_COMMENT_ATTEMPTS at hcap ⊢
          omega
        simp [h2']

theorem C8_verify_delay_and_reopen_witness :
    Cw.verifyRecord 100 (some false)
        { comment_status := "commented_unverified", comment_id := "abc"
          commented_epoch := some 0, comment_attempts := 2 } =
      { comment_status := "commented_unverified", comment_id := "abc"
        commented_epoch := some 0, comment_attempts := 2 } ∧
    (Cw.verifyRecord 200 (some false)
        { comment_status := "commented_unverified", comment_id := "abc"
          commented_epoch := some 0, comment_attempts := 2 }).comment_status = "not_found" := by
  constructor
  · exact (C8_verify_delay_and_reopen 100 0 (some false)
      { comment_status := "commented_unverified", comment_id := "abc"
        commented_epoch := some 0, comment_attempts := 2 }
      rfl (by decide) rfl).1 (by decide)
  · exact ((C8_verify_delay_and_reopen 200 0 (some false)
      { comment_status := "commented_unverified", comment_id := "abc"
        commented_epoch := some 0, comment_attempts := 2 }
      rfl (by decide) rfl).2 (by decide) rfl).1

/-- C3 counterexample: on a YouTube run whose stored rotation day differs
from the current day but which selects no eligible item (the only item is
already a success), `main` returns without saving — the persisted state is
bit-for-bit the old one, so the day advance computed in memory is lost;
moreover the in-memory "advance" from a stored index `0` yields `0` again
(the `or -1` read), not `1`. -/
theorem C3_rotation_advance_lost_on_empty_run :
    Yt.mainPersisted "2026-10-12" [wItemA]
        { rotation := { index := some 0, lastDay := "2026-10-11" }
          items := [("u1", { video_url := "u1", result := some "success", attempts := 1 })]
          runs := [] } (.success "x") =
      { rotation := { index := some 0, lastDay := "2026-10-11" }
        items := [("u1", { video_url := "u1", result := some "success", attempts := 1 })]
        runs := [] } ∧
    (Yt.pick_next_item "2026-10-12"
        { rotation := { index := some 0, lastDay := "2026-10-11" }
          items := [("u1", { video_url := "u1", result := some "success", attempts := 1 })]
          runs := [] } [wItemA]).1.rotation =
      { index := some 0, lastDay := "2026-10-12" } ∧
    "2026-10-11" ≠ "2026-10-12" := by
  refine ⟨by decide, by decide, by decide⟩

/-- C3 (amended): when the stored rotation day differs from the current
day, both pipelines update the in-memory cursor once (the Facebook Reels
pipeline advances the index by one mod the bucket count from any
non-negative stored index; the YouTube pipeline computes
`(read + 1) % count` where a stored index `0` is read back as `-1`), and
the new day is made durable on every Facebook Reels run that completes its
pick — empty or not — but on a YouTube run only when a transfer attempt is
recorded. -/
theorem C3_rotation_advance :
    (∀ (today : String) (st : Yt.State) (items : List Yt.VideoItem),
        today ≠ st.rotation.lastDay →
        (Yt.pick_next_item today st items).1.rotation =
          { index := some ((Yt.readRotIndex st.rotation + 1) %
              (max 1 (MANIFEST_FILES_ORDER.length : Int)))
            lastDay := today }) ∧
    (∀ (today : String) (st : Yt.State) (items : List Yt.VideoItem),
        today = st.rotation.lastDay →
        (Yt.pick_next_item today st items).1.rotation = st.rotation) ∧
    (∀ (today : String) (st : Yt.State) (items : List Yt.VideoItem) (it : Yt.VideoItem)
        (vid err : String),
        (Yt.pick_next_item today st items).2 = some it →
        (Yt.mainPersisted today items st (.success vid)).rotation =
            (Yt.pick_next_item today st items).1.rotation ∧
          (Yt.mainPersisted today items st (.failed err)).rotation =
            (Yt.pick_next_item today st items).1.rotation) ∧
    (∀ (today : String) (manifests : List (String × List Fb.RawItem)) (st : Fb.State)
        (outcome : Fb.Outcome) (r : Option Fb.ReelItem),
        strTrim st.rotation.lastDay ≠ today →
        (Fb.pick_next_item today manifests st).2 = .ok r →
        (Fb.mainPersisted today manifests st outcome).rotation =
          { index := some (Fb.advancedIndex st.rotation), lastDay := today }) := by
  refine ⟨?_, ?_, ?_, ?_⟩
  · intro today st items h
    show Yt.rotatedRotation today st.rotation = _
    unfold Yt.rotatedRotation Yt.activeIndex
    rw [if_pos h, if_pos h]
  · intro today st items h
    show Yt.rotatedRotation today st.rotation = _
    unfold Yt.rotatedRotation
    rw [if_neg (fun hc => hc h)]
  · intro today st items it vid err hp
    constructor
    · unfold Yt.mainPersisted
      dsimp only
      rw [hp]
      rfl
    · unfold Yt.mainPersisted
      dsimp only
      rw [hp]
      rfl
  · intro today manifests st outcome r hday hpick
    have hmc : (Fb.manifest_cycle_for_today today st).1.rotation =
        { index := some (Fb.advancedIndex st.rotation), lastDay := today } := by
      unfold Fb.manifest_cycle_for_today Fb.advancedIndex
      dsimp only
      rw [if_pos hday]
    have hp1 : (Fb.pick_next_item today manifests st).1.rotation =
        (Fb.manifest_cycle_for_today today st).1.rotation := by
      unfold Fb.pick_next_item
      dsimp only
      split <;> rfl
    unfold Fb.mainPersisted
    dsimp only
    rw [hpick]
    cases r with
    | none => rw [hp1, hmc]
    | some item =>
        cases outcome with
        | success vid =>
            show (Fb.pick_next_item today manifests st).1.rotation = _
            rw [hp1, hmc]
        | failed vid err =>
            show (Fb.pick_next_item today manifests st).1.rotation = _
            rw [hp1, hmc]
        | dryRun => rw [hp1, hmc]

theorem C3_rotation_advance_witness :
    (Yt.pick_next_item "2026-10-12"
        { rotation := { index := some 1, lastDay := "2026-10-11" }, items := [], runs := [] }
        []).1.rotation =
      { index := some ((Yt.readRotIndex { index := some 1, lastDay := "2026-10-11" } + 1) %
          (max 1 (MANIFEST_FILES_ORDER.length : Int)))
        lastDay := "2026-10-12" } ∧
    (Yt.mainPersisted "2026-10-12" [wItemB] ({} : Yt.State) (.success "v")).rotation =
      (Yt.pick_next_item "2026-10-12" ({} : Yt.State) [wItemB]).1.rotation ∧
    (Fb.mainPersisted "2026-10-12" [("drywall.json", [wRawC])] ({} : Fb.State)
        (.success "v")).rotation =
      { index := some (Fb.advancedIndex ({} : Fb.State).rotation), lastDay := "2026-10-12" } := by
  refine ⟨?_, ?_, ?_⟩
  · exact C3_rotation_advance.1 "2026-10-12"
      { rotation := { index := some 1, lastDay := "2026-10-11" }, items := [], runs := [] }
      [] (by decide)
  · exact (C3_rotation_advance.2.2.1 "2026-10-12" ({} : Yt.State) [wItemB] wItemB "v" "e"
      (by decide)).1
  · exact C3_rotation_advance.2.2.2 "2026-10-12" [("drywall.json", [wRawC])] ({} : Fb.State)
      (.success "v") (some wItemC) (by decide) (by rfl)

set_option maxRecDepth 40000 in
/-- C6 counterexample: in the Facebook Reels pipeline a status-poll timeout
is NOT treated as failure by the caller — with every poll returning a
non-terminal status, `wait_until_published` returns the last-seen status
as a plain `.ok` partial result and `main` goes on to record `"success"`
for the item. -/
theorem C6_fb_records_success_on_poll_timeout :
    Fb.wait_until_published
        (fun _ => { uploading := "in_progress", processing := "in_progress"
                    publishing := "in_progress", video_status := "in_progress" })
        Fb.STATUS_POLL_BUDGET 0 {} =
      .ok { uploading := "in_progress", processing := "in_progress"
            publishing := "in_progress", video_status := "in_progress" } ∧
    Fb.recordedResult
        (Fb.mainAfterPublish
          (fun _ => { uploading := "in_progress", processing := "in_progress"
                      publishing := "in_progress", video_status := "in_progress" })
          ({} : Fb.State) wItemC "vid1")
        wItemC.video_url = some "success" := by
  constructor
  · rfl
  · rfl

theorem pin_poll_stuck (statuses : Nat → String)
    (hs : ∀ j, strLower (statuses j) = "processing") :
    ∀ (fuel i : Nat) (last : String), 1 ≤ fuel →
      Pin.poll_media_status statuses fuel i last = "processing" := by
  intro fuel
  induction fuel with
  | zero => intro i last h; omega
  | succ n ih =>
      intro i last _h
      unfold Pin.poll_media_status
      dsimp only
      rw [hs i]
      rw [if_neg (by decide), if_neg (by decide)]
      cases n with
      | zero => rfl
      | succ m => exact ih (i + 1) "processing" (by omega)

/-- C6 (amended): the status poll loops on a fixed interval until an
explicit success signal (returning that status) or an explicit error
signal (raising), and when the poll budget runs out it returns the
last-seen status as a partial result.  The Pinterest caller then treats
any non-`succeeded` poll outcome — including a timeout — as failure, but
the Facebook Reels caller does not inspect the `.ok` result at all and
records success even when the poll merely timed out. -/
theorem C6_poll_terminal_or_timeout :
    (∀ (f : Nat → Fb.UploadStatus) (i : Nat) (last : Fb.UploadStatus),
        Fb.wait_until_published f 0 i last = .ok last) ∧
    (∀ (f : Nat → Fb.UploadStatus) (fuel i : Nat) (last : Fb.UploadStatus),
        strLower (f i).publishing = "complete" →
        Fb.wait_until_published f (fuel + 1) i last = .ok (f i)) ∧
    (∀ (f : Nat → Fb.UploadStatus) (fuel i : Nat) (last : Fb.UploadStatus),
        strLower (f i).publishing ≠ "complete" →
        ¬(strLower (f i).video_status = "ready" ∨ strLower (f i).video_status = "published") →
        ((strLower (f i).uploading = "error" ∨ strLower (f i).uploading = "failed") ∨
          (strLower (f i).processing = "error" ∨ strLower (f i).processing = "failed") ∨
          (strLower (f i).publishing = "error" ∨ strLower (f i).publishing = "failed")) →
        Fb.wait_until_published f (fuel + 1) i last = .error "status indicates failure") ∧
    (∀ (statuses : Nat → String) (st : Pin.State) (item : Pin.PinItem) (mid : String)
        (po : Except String String),
        (∀ j, strLower (statuses j) = "processing") →
        Pin.recordedResult (Pin.mainAfterUpload statuses st item mid po) item.video_url =
          some "failed") ∧
    (∀ (f : Nat → Fb.UploadStatus) (st : Fb.State) (item : Fb.ReelItem) (vid : String)
        (s : Fb.UploadStatus),
        Fb.wait_until_published f Fb.STATUS_POLL_BUDGET 0 {} = .ok s →
        Fb.recordedResult (Fb.mainAfterPublish f st item vid) item.video_url =
          some "success") := by
  refine ⟨?_, ?_, ?_, ?_, ?_⟩
  · intro f i last
    rfl
  · intro f fuel i last hpub
    unfold Fb.wait_until_published
    dsimp only
    rw [if_pos hpub]
  · intro f fuel i last h1 h2 h3
    unfold Fb.wait_until_published
    dsimp only
    rw [if_neg h1, if_neg h2, if_pos h3]
  · intro statuses st item mid po hs
    unfold Pin.mainAfterUpload
    dsimp only
    rw [pin_poll_stuck statuses hs Pin.MEDIA_POLL_BUDGET 0 "registered" (by decide)]
    rw [if_neg (by decide)]
    unfold Pin.recordedResult Pin.update_state_for_attempt
    dsimp only
    rw [lookupRec_setRec_self]
  · intro f st item vid s hok
    unfold Fb.mainAfterPublish
    rw [hok]
    unfold Fb.recordedResult Fb.resultOfItems Fb.update_state_for_attempt
    dsimp only
    rw [lookupRec_setRec_self]

theorem C6_poll_terminal_or_timeout_witness :
    Fb.wait_until_published (fun _ => ({} : Fb.UploadStatus)) 0 0 {} = .ok {} ∧
    Fb.wait_until_published (fun _ => { publishing := "complete" : Fb.UploadStatus }) 3 0 {} =
      .ok { publishing := "complete" : Fb.UploadStatus } ∧
    Fb.wait_until_published (fun _ => { processing := "error" : Fb.UploadStatus }) 3 0 {} =
      .error "status indicates failure" ∧
    Pin.recordedResult
        (Pin.mainAfterUpload (fun _ => "processing") ({} : Pin.State)
          { manifest_name := "drywall.json", video_url := "u4", filename := "f4"
            title := "T4", board_id := "b", destination_url := "" } "m1" (.ok "p1"))
        "u4" = some "failed" ∧
    Fb.recordedResult
        (Fb.mainAfterPublish (fun _ => { publishing := "complete" : Fb.UploadStatus })
          ({} : Fb.State) wItemC "vid1")
        wItemC.video_url = some "success" := by
  refine ⟨?_, ?_, ?_, ?_, ?_⟩
  · exact C6_poll_terminal_or_timeout.1 (fun _ => ({} : Fb.UploadStatus)) 0 {}
  · exact C6_poll_terminal_or_timeout.2.1 (fun _ => { publishing := "complete" : Fb.UploadStatus })
      2 0 {} (by decide)
  · exact C6_poll_terminal_or_timeout.2.2.1 (fun _ => { processing := "error" : Fb.UploadStatus })
      2 0 {} (by decide) (by decide) (by decide)
  · exact C6_poll_terminal_or_timeout.2.2.2.1 (fun _ => "processing") ({} : Pin.State)
      { manifest_name := "drywall.json", video_url := "u4", filename := "f4"
        title := "T4", board_id := "b", destination_url := "" } "m1" (.ok "p1")
      (fun j => rfl)
  · exact C6_poll_terminal_or_timeout.2.2.2.2
      (fun _ => { publishing := "complete" : Fb.UploadStatus }) ({} : Fb.State) wItemC "vid1"
      { publishing := "complete" : Fb.UploadStatus } (by rfl)

theorem string_mk_data (s : String) : String.mk s.data = s := rfl

theorem parseStrBody_escape (cs : List Char) :
    ∀ rest : List Char,
      Js.parseStrBody ((cs.flatMap Js.escChar) ++ (Js.qChar :: rest)) = some (cs, rest) := by
  induction cs with
  | nil =>
      intro rest
      simp only [List.flatMap_nil, List.nil_append]
      unfold Js.parseStrBody
      rw [if_pos rfl]
  | cons c cs' ih =>
      intro rest
      simp only [List.flatMap_cons, List.append_assoc]
      unfold Js.escChar
      by_cases hc : c = Js.qChar ∨ c = Js.bsChar
      · rw [if_pos hc]
        show Js.parseStrBody (Js.bsChar :: c :: ((cs'.flatMap Js.escChar) ++ (Js.qChar :: rest))) = _
        unfold Js.parseStrBody
        rw [if_neg (by decide), if_pos rfl]
        dsimp only
        rw [ih rest]
        rfl
      · rw [if_neg hc]
        show Js.parseStrBody (c :: ((cs'.flatMap Js.escChar) ++ (Js.qChar :: rest))) = _
        unfold Js.parseStrBody
        rw [if_neg (fun h => hc (Or.inl h)), if_neg (fun h => hc (Or.inr h))]
        rw [ih rest]
        rfl

theorem digitChar_isDigit (d : Nat) (h : d < 10) : (Nat.digitChar d).isDigit = true := by
  interval_cases d <;> decide

theorem digitVal_digitChar (d : Nat) (h : d < 10) : Js.digitVal (Nat.digitChar d) = d := by
  interval_cases d <;> decide

theorem natChars_small (n : Nat) (h : n < 10) : Js.natChars n = [Nat.digitChar n] := by
  unfold Js.natChars
  rw [dif_pos h]

theorem natChars_large (n : Nat) (h : ¬n < 10) :
    Js.natChars n = Js.natChars (n / 10) ++ [Nat.digitChar (n % 10)] := by
  conv_lhs => rw [Js.natChars]
  rw [dif_neg h]

theorem natChars_head_digit (n : Nat) :
    ∃ c cs, Js.natChars n = c :: cs ∧ c.isDigit = true := by
  induction n using Nat.strong_induction_on with
  | _ n ih =>
      by_cases h : n < 10
      · rw [natChars_small n h]
        exact ⟨_, _, rfl, digitChar_isDigit n h⟩
      · rw [natChars_large n h]
        obtain ⟨c, cs, hc, hd⟩ := ih (n / 10) (Nat.div_lt_self (by omega) (by omega))
        exact ⟨c, cs ++ [Nat.digitChar (n % 10)], by rw [hc]; rfl, hd⟩

theorem parseDigits_stop (rest : List Char) (acc : Nat)
    (h : Js.startsWithDigit rest = false) : Js.parseDigits rest acc = (acc, rest) := by
  cases rest with
  | nil => rfl
  | cons c t =>
      have h' : c.isDigit = false := h
      unfold Js.parseDigits
      rw [if_neg (by simp [h'])]

theorem parseDigits_cons_digit (c : Char) (cs : List Char) (acc : Nat)
    (h : c.isDigit = true) :
    Js.parseDigits (c :: cs) acc = Js.parseDigits cs (acc * 10 + Js.digitVal c) := by
  conv_lhs => rw [Js.parseDigits]
  rw [if_pos h]

theorem parseDigits_natChars (n : Nat) :
    ∀ (rest : List Char) (acc : Nat),
      Js.parseDigits (Js.natChars n ++ rest) acc =
        Js.parseDigits rest (acc * 10 ^ (Js.natChars n).length + n) := by
  induction n using Nat.strong_induction_on with
  | _ n ih =>
      intro rest acc
      by_cases h : n < 10
      · rw [natChars_small n h]
        rw [List.singleton_append]
        rw [parseDigits_cons_digit _ _ _ (digitChar_isDigit n h), digitVal_digitChar n h]
        congr 1
      · rw [natChars_large n h, List.append_assoc]
        rw [ih (n / 10) (Nat.div_lt_self (by omega) (by omega))]
        rw [List.singleton_append]
        rw [parseDigits_cons_digit _ _ _ (digitChar_isDigit _ (Nat.mod_lt _ (by omega))),
          digitVal_digitChar _ (Nat.mod_lt _ (by omega))]
        congr 1
        rw [List.length_append, List.length_singleton]
        have hdm : n / 10 * 10 + n % 10 = n := by omega
        calc ((acc * 10 ^ (Js.natChars (n / 10)).length + n / 10)) * 10 + n % 10
            = acc * (10 ^ (Js.natChars (n / 10)).length * 10) + (n / 10 * 10 + n % 10) := by ring
          _ = acc * 10 ^ ((Js.natChars (n / 10)).length + 1) + n := by rw [hdm, pow_succ]

theorem digit_ne_special (c : Char) (h : c.isDigit = true) :
    c ≠ 'n' ∧ c ≠ 't' ∧ c ≠ 'f' ∧ c ≠ Js.qChar ∧ c ≠ '-' ∧ c ≠ '[' ∧ c ≠ ']' ∧
    c ≠ Js.obChar ∧ c ≠ Js.cbChar ∧ c ≠ ',' ∧ c ≠ ':' := by
  refine ⟨?_, ?_, ?_, ?_, ?_, ?_, ?_, ?_, ?_, ?_, ?_⟩ <;>
    (intro he; subst he; exact absurd h (by decide))

theorem ser_head_spec (v : Js.J) :
    ∃ c cs, Js.ser v = c :: cs ∧
      (c = 'n' ∨ c = 't' ∨ c = 'f' ∨ c = Js.qChar ∨ c = '-' ∨ c.isDigit = true ∨
        c = '[' ∨ c = Js.obChar) := by
  cases v with
  | null => exact ⟨'n', _, rfl, by tauto⟩
  | bool b =>
      cases b with
      | true => exact ⟨'t', _, rfl, by tauto⟩
      | false => exact ⟨'f', _, rfl, by tauto⟩
  | num n =>
      show ∃ c cs, Js.intChars n = c :: cs ∧ _
      unfold Js.intChars
      by_cases hn : n < 0
      · rw [if_pos hn]
        exact ⟨'-', _, rfl, by tauto⟩
      · rw [if_neg hn]
        obtain ⟨c, cs, hc, hd⟩ := natChars_head_digit n.toNat
        exact ⟨c, cs, hc, by tauto⟩
  | str s => exact ⟨Js.qChar, _, rfl, by tauto⟩
  | arr xs =>
      cases xs with
      | nil => exact ⟨'[', _, rfl, by tauto⟩
      | cons x xs' => exact ⟨'[', _, rfl, by tauto⟩
  | obj kvs =>
      cases kvs with
      | nil => exact ⟨Js.obChar, _, rfl, by tauto⟩
      | cons kv kvs' =>
          obtain ⟨k, v'⟩ := kv
          exact ⟨Js.obChar, _, rfl, by tauto⟩

theorem ser_head_ne (v : Js.J) :
    ∃ c cs, Js.ser v = c :: cs ∧ c ≠ ']' ∧ c ≠ Js.cbChar := by
  obtain ⟨c, cs, hc, hd⟩ := ser_head_spec v
  refine ⟨c, cs, hc, ?_, ?_⟩
  · rcases hd with h | h | h | h | h | h | h | h <;>
      first
        | (subst h; decide)
        | exact (digit_ne_special c h).2.2.2.2.2.2.1
  · rcases hd with h | h | h | h | h | h | h | h <;>
      first
        | (subst h; decide)
        | exact (digit_ne_special c h).2.2.2.2.2.2.2.2.1

theorem sizeJ_pos (v : Js.J) : 1 ≤ Js.sizeJ v := by
  cases v with
  | null => exact le_refl 1
  | bool b => exact le_refl 1
  | num n => exact le_refl 1
  | str s => exact le_refl 1
  | arr xs => cases xs <;> (simp [Js.sizeJ]; try omega)
  | obj kvs =>
      cases kvs with
      | nil => simp [Js.sizeJ]
      | cons kv kvs' => obtain ⟨k, v'⟩ := kv; simp [Js.sizeJ]; omega

theorem sizeA_pos (vs : List Js.J) : 1 ≤ Js.sizeA vs := by
  cases vs <;> (simp [Js.sizeA]; try omega)

theorem sizeO_pos (kvs : List (String × Js.J)) : 1 ≤ Js.sizeO kvs := by
  cases kvs with
  | nil => simp [Js.sizeO]
  | cons kv kvs' => obtain ⟨k, v'⟩ := kv; simp [Js.sizeO]; omega

theorem serTail_not_digit (vs : List Js.J) (rest : List Char) :
    Js.startsWithDigit (Js.serTail vs ++ rest) = false := by
  cases vs with
  | nil => rfl
  | cons w ws => rfl

theorem serOTail_not_digit (kvs : List (String × Js.J)) (rest : List Char) :
    Js.startsWithDigit (Js.serOTail kvs ++ rest) = false := by
  cases kvs with
  | nil => rfl
  | cons kv kvs' => obtain ⟨k, v'⟩ := kv; rfl

theorem parseVal_null (n : Nat) (rest : List Char) :
    Js.parseVal (n + 1) ('n' :: 'u' :: 'l' :: 'l' :: rest) = some (.null, rest) := by
  simp [Js.parseVal]

theorem parseVal_true (n : Nat) (rest : List Char) :
    Js.parseVal (n + 1) ('t' :: 'r' :: 'u' :: 'e' :: rest) = some (.bool true, rest) := by
  simp [Js.parseVal]

theorem parseVal_false (n : Nat) (rest : List Char) :
    Js.parseVal (n + 1) ('f' :: 'a' :: 'l' :: 's' :: 'e' :: rest) = some (.bool false, rest) := by
  simp [Js.parseVal]

theorem parseVal_str (n : Nat) (s : String) (rest : List Char) :
    Js.parseVal (n + 1) (Js.serStrChars s ++ rest) = some (.str s, rest) := by
  show Js.parseVal (n + 1) (Js.qChar :: (((s.data.flatMap Js.escChar) ++ [Js.qChar]) ++ rest)) = _
  simp only [Js.parseVal]
  rw [if_pos trivial]
  rw [List.append_assoc, List.singleton_append, parseStrBody_escape s.data rest]
  rfl

theorem qChar_ne_n : (Js.qChar = 'n') = False := by decide

theorem qChar_ne_t : (Js.qChar = 't') = False := by decide

theorem qChar_ne_f : (Js.qChar = 'f') = False := by decide

theorem qChar_eq_self : (Js.qChar = Js.qChar) = True := by simp

theorem dash_ne_qChar : ('-' = Js.qChar) = False := by decide

theorem lb_ne_qChar : ('[' = Js.qChar) = False := by decide

theorem lb_ne_obChar : ('[' = Js.obChar) = False := by decide

theorem comma_ne_cbChar : (',' = Js.cbChar) = False := by decide

theorem obChar_ne_n : (Js.obChar = 'n') = False := by decide

theorem obChar_ne_t : (Js.obChar = 't') = False := by decide

theorem obChar_ne_f : (Js.obChar = 'f') = False := by decide

theorem obChar_ne_qChar : (Js.obChar = Js.qChar) = False := by decide

theorem obChar_ne_dash : (Js.obChar = '-') = False := by decide

theorem obChar_ne_lb : (Js.obChar = '[') = False := by decide

theorem obChar_eq_self : (Js.obChar = Js.obChar) = True := by simp

theorem cbChar_eq_self : (Js.cbChar = Js.cbChar) = True := by simp

theorem qChar_ne_cbChar : (Js.qChar = Js.cbChar) = False := by decide

theorem qChar_not_digit : Js.qChar.isDigit = false := by decide

theorem obChar_not_digit : Js.obChar.isDigit = false := by decide

theorem cbChar_ne_cases : (Js.cbChar = ']') = False := by decide

theorem parseVal_natnum (n m : Nat) (rest : List Char)
    (hrest : Js.startsWithDigit rest = false) :
    Js.parseVal (n + 1) (Js.natChars m ++ rest) = some (.num (m : Int), rest) := by
  obtain ⟨c, cs, hser, hd⟩ := natChars_head_digit m
  have hne := digit_ne_special c hd
  rw [hser, List.cons_append]
  simp only [Js.parseVal]
  rw [if_neg hne.1, if_neg hne.2.1, if_neg hne.2.2.1, if_neg hne.2.2.2.1,
    if_neg hne.2.2.2.2.1, if_pos hd]
  have hback : (c :: (cs ++ rest)) = Js.natChars m ++ rest := by rw [hser]; rfl
  rw [hback, parseDigits_natChars m rest 0, parseDigits_stop rest _ hrest]
  simp

theorem parseVal_negnum (n m : Nat) (rest : List Char)
    (hrest : Js.startsWithDigit rest = false) :
    Js.parseVal (n + 1) ('-' :: (Js.natChars m ++ rest)) = some (.num (-(m : Int)), rest) := by
  have hstart : Js.startsWithDigit (Js.natChars m ++ rest) = true := by
    obtain ⟨c, cs, hser, hd⟩ := natChars_head_digit m
    rw [hser]
    exact hd
  simp only [Js.parseVal, dash_ne_qChar, if_false]
  rw [if_pos trivial, if_pos hstart]
  rw [parseDigits_natChars m rest 0, parseDigits_stop rest _ hrest]
  simp

theorem parseVal_arrnil (n : Nat) (rest : List Char) :
    Js.parseVal (n + 1) ('[' :: ']' :: rest) = some (.arr [], rest) := by
  simp [Js.parseVal, lb_ne_qChar, lb_ne_obChar]

theorem parseVal_objnil (n : Nat) (rest : List Char) :
    Js.parseVal (n + 1) (Js.obChar :: Js.cbChar :: rest) = some (.obj [], rest) := by
  simp [Js.parseVal, obChar_ne_n, obChar_ne_t, obChar_ne_f, obChar_ne_qChar, obChar_ne_dash,
    obChar_ne_lb, obChar_not_digit, obChar_eq_self, cbChar_eq_self]

theorem parseArrTail_nil (n : Nat) (rest : List Char) :
    Js.parseArrTail (n + 1) (']' :: rest) = some ([], rest) := by
  simp [Js.parseArrTail]

theorem parseObjTail_nil (n : Nat) (rest : List Char) :
    Js.parseObjTail (n + 1) (Js.cbChar :: rest) = some ([], rest) := by
  simp [Js.parseObjTail, cbChar_eq_self]

theorem lb_ne_n : ('[' = 'n') = False := by decide

theorem lb_ne_t : ('[' = 't') = False := by decide

theorem lb_ne_f : ('[' = 'f') = False := by decide

theorem lb_ne_dash : ('[' = '-') = False := by decide

theorem lb_not_digit : ('[').isDigit = false := by decide

theorem lb_eq_self : ('[' = '[') = True := by simp

theorem comma_ne_rb : (',' = ']') = False := by decide

theorem comma_eq_self : (',' = ',') = True := by simp

theorem parseVal_arrcons (n : Nat) (v : Js.J) (vs : List Js.J) (rest : List Char)
    (hv : Js.parseVal n (Js.ser v ++ (Js.serTail vs ++ rest)) =
      some (v, Js.serTail vs ++ rest))
    (ha : Js.parseArrTail n (Js.serTail vs ++ rest) = some (vs, rest)) :
    Js.parseVal (n + 1) ('[' :: (Js.ser v ++ (Js.serTail vs ++ rest))) =
      some (.arr (v :: vs), rest) := by
  obtain ⟨c, cs, hser, hne1, _hne2⟩ := ser_head_ne v
  simp only [Js.parseVal, lb_ne_n, lb_ne_t, lb_ne_f, lb_ne_qChar, lb_ne_dash, lb_not_digit,
    lb_ne_obChar, lb_eq_self, Bool.false_eq_true, if_false, if_true]
  rw [hser, List.cons_append]
  split
  · rename_i r heq
    injection heq with h1 h2
    exact absurd h1 hne1
  · have hback : (c :: (cs ++ (Js.serTail vs ++ rest))) =
        Js.ser v ++ (Js.serTail vs ++ rest) := by rw [hser]; rfl
    rw [hback, hv]
    dsimp only
    rw [ha]

theorem parseVal_objcons (n : Nat) (k : String) (v : Js.J) (kvs : List (String × Js.J))
    (rest : List Char)
    (hv : Js.parseVal n (Js.ser v ++ (Js.serOTail kvs ++ rest)) =
      some (v, Js.serOTail kvs ++ rest))
    (ho : Js.parseObjTail n (Js.serOTail kvs ++ rest) = some (kvs, rest)) :
    Js.parseVal (n + 1)
        (Js.obChar :: (Js.serStrChars k ++ (':' :: (Js.ser v ++ (Js.serOTail kvs ++ rest))))) =
      some (.obj ((k, v) :: kvs), rest) := by
  show Js.parseVal (n + 1)
      (Js.obChar :: Js.qChar ::
        (((k.data.flatMap Js.escChar) ++ [Js.qChar]) ++
          (':' :: (Js.ser v ++ (Js.serOTail kvs ++ rest))))) = _
  simp only [Js.parseVal, obChar_ne_n, obChar_ne_t, obChar_ne_f, obChar_ne_qChar,
    obChar_ne_dash, obChar_ne_lb, obChar_not_digit, obChar_eq_self, qChar_ne_cbChar,
    qChar_eq_self, Bool.false_eq_true, if_false, if_true]
  rw [List.append_assoc, List.singleton_append, parseStrBody_escape k.data]
  simp [hv, ho, string_mk_data]

theorem parseArrTail_cons (n : Nat) (w : Js.J) (ws : List Js.J) (rest : List Char)
    (hv : Js.parseVal n (Js.ser w ++ (Js.serTail ws ++ rest)) =
      some (w, Js.serTail ws ++ rest))
    (ha : Js.parseArrTail n (Js.serTail ws ++ rest) = some (ws, rest)) :
    Js.parseArrTail (n + 1) (',' :: (Js.ser w ++ (Js.serTail ws ++ rest))) =
      some (w :: ws, rest) := by
  simp only [Js.parseArrTail, comma_ne_rb, comma_eq_self, if_false, if_true]
  rw [hv]
  dsimp only
  rw [ha]

theorem parseObjTail_cons (n : Nat) (k : String) (v : Js.J) (kvs : List (String × Js.J))
    (rest : List Char)
    (hv : Js.parseVal n (Js.ser v ++ (Js.serOTail kvs ++ rest)) =
      some (v, Js.serOTail kvs ++ rest))
    (ho : Js.parseObjTail n (Js.serOTail kvs ++ rest) = some (kvs, rest)) :
    Js.parseObjTail (n + 1)
        (',' :: (Js.serStrChars k ++ (':' :: (Js.ser v ++ (Js.serOTail kvs ++ rest))))) =
      some ((k, v) :: kvs, rest) := by
  show Js.parseObjTail (n + 1)
      (',' :: Js.qChar ::
        (((k.data.flatMap Js.escChar) ++ [Js.qChar]) ++
          (':' :: (Js.ser v ++ (Js.serOTail kvs ++ rest))))) = _
  simp only [Js.parseObjTail, comma_ne_cbChar, comma_eq_self, qChar_eq_self,
    Bool.false_eq_true, if_false, if_true]
  rw [List.append_assoc, List.singleton_append, parseStrBody_escape k.data]
  simp [hv, ho, string_mk_data]

theorem size_le_len (n : Nat) :
    (∀ v : Js.J, Js.sizeJ v ≤ n → Js.sizeJ v ≤ (Js.ser v).length) ∧
    (∀ vs : List Js.J, Js.sizeA vs ≤ n → Js.sizeA vs ≤ (Js.serTail vs).length) ∧
    (∀ kvs : List (String × Js.J), Js.sizeO kvs ≤ n → Js.sizeO kvs ≤ (Js.serOTail kvs).length) := by
  induction n using Nat.strong_induction_on with
  | _ n ih =>
      refine ⟨?_, ?_, ?_⟩
      · intro v hsz
        cases v with
        | null => simp [Js.sizeJ, Js.ser, Js.nullChars]
        | bool b => cases b <;> simp [Js.sizeJ, Js.ser, Js.trueChars, Js.falseChars]
        | num k =>
            show Js.sizeJ (.num k) ≤ (Js.intChars k).length
            unfold Js.intChars
            split
            · simp [Js.sizeJ]
            · obtain ⟨c, cs, hc, _⟩ := natChars_head_digit k.toNat
              rw [hc]
              simp [Js.sizeJ]
        | str s => simp [Js.sizeJ, Js.ser, Js.serStrChars]
        | arr xs =>
            cases xs with
            | nil => simp [Js.sizeJ, Js.ser]
            | cons v vs =>
                have hszv := sizeJ_pos v
                have hszvs := sizeA_pos vs
                simp only [Js.sizeJ] at hsz
                have hn1 : n - 1 < n := by omega
                have ih1 := (ih (n - 1) hn1).1 v (by omega)
                have ih2 := (ih (n - 1) hn1).2.1 vs (by omega)
                simp only [Js.sizeJ, Js.ser, List.length_cons, List.length_append]
                omega
        | obj kvs =>
            cases kvs with
            | nil => simp [Js.sizeJ, Js.ser]
            | cons kv kvs' =>
                obtain ⟨k, v⟩ := kv
                have hszv := sizeJ_pos v
                have hszvs := sizeO_pos kvs'
                simp only [Js.sizeJ] at hsz
                have hn1 : n - 1 < n := by omega
                have ih1 := (ih (n - 1) hn1).1 v (by omega)
                have ih2 := (ih (n - 1) hn1).2.2 kvs' (by omega)
                simp only [Js.sizeJ, Js.ser, List.length_cons, List.length_append]
                omega
      · intro vs hsz
        cases vs with
        | nil => simp [Js.sizeA, Js.serTail]
        | cons v vs' =>
            have hszv := sizeJ_pos v
            have hszvs := sizeA_pos vs'
            simp only [Js.sizeA] at hsz
            have hn1 : n - 1 < n := by omega
            have ih1 := (ih (n - 1) hn1).1 v (by omega)
            have ih2 := (ih (n - 1) hn1).2.1 vs' (by omega)
            simp only [Js.sizeA, Js.serTail, List.length_cons, List.length_append]
            omega
      · intro kvs hsz
        cases kvs with
        | nil => simp [Js.sizeO, Js.serOTail]
        | cons kv kvs' =>
            obtain ⟨k, v⟩ := kv
            have hszv := sizeJ_pos v
            have hszvs := sizeO_pos kvs'
            simp only [Js.sizeO] at hsz
            have hn1 : n - 1 < n := by omega
            have ih1 := (ih (n - 1) hn1).1 v (by omega)
            have ih2 := (ih (n - 1) hn1).2.2 kvs' (by omega)
            simp only [Js.sizeO, Js.serOTail, List.length_cons, List.length_append]
            omega

theorem parse_ser (n : Nat) :
    (∀ (v : Js.J) (rest : List Char), Js.sizeJ v ≤ n → Js.startsWithDigit rest = false →
        Js.parseVal n (Js.ser v ++ rest) = some (v, rest)) ∧
    (∀ (vs : List Js.J) (rest : List Char), Js.sizeA vs ≤ n →
        Js.parseArrTail n (Js.serTail vs ++ rest) = some (vs, rest)) ∧
    (∀ (kvs : List (String × Js.J)) (rest : List Char), Js.sizeO kvs ≤ n →
        Js.parseObjTail n (Js.serOTail kvs ++ rest) = some (kvs, rest)) := by
  induction n using Nat.strong_induction_on with
  | _ n ih =>
      refine ⟨?_, ?_, ?_⟩
      · intro v rest hsz hrest
        obtain ⟨m, rfl⟩ : ∃ m, n = m + 1 := ⟨n - 1, by have := sizeJ_pos v; omega⟩
        have hm : m < m + 1 := Nat.lt_succ_self m
        cases v with
        | null => exact parseVal_null m rest
        | bool b => cases b with
            | true => exact parseVal_true m rest
            | false => exact parseVal_false m rest
        | num k =>
            by_cases hk : k < 0
            · rw [show Js.ser (.num k) = '-' :: Js.natChars k.natAbs from by
                unfold Js.ser Js.intChars; rw [if_pos hk]]
              rw [List.cons_append]
              rw [parseVal_negnum m k.natAbs rest hrest]
              have hk2 : -((k.natAbs : Int)) = k := by omega
              rw [hk2]
            · rw [show Js.ser (.num k) = Js.natChars k.toNat from by
                unfold Js.ser Js.intChars; rw [if_neg hk]]
              rw [parseVal_natnum m k.toNat rest hrest]
              have hk2 : ((k.toNat : Int)) = k := Int.toNat_of_nonneg (by omega)
              rw [hk2]
        | str s => exact parseVal_str m s rest
        | arr xs =>
            cases xs with
            | nil => exact parseVal_arrnil m rest
            | cons v vs =>
                have hszv := sizeJ_pos v
                have hszvs := sizeA_pos vs
                simp only [Js.sizeJ] at hsz
                have hv := (ih m hm).1 v (Js.serTail vs ++ rest) (by omega)
                  (serTail_not_digit vs rest)
                have ha := (ih m hm).2.1 vs rest (by omega)
                show Js.parseVal (m + 1) (('[' :: (Js.ser v ++ Js.serTail vs)) ++ rest) = _
                rw [List.cons_append, List.append_assoc]
                exact parseVal_arrcons m v vs rest hv ha
        | obj kvs =>
            cases kvs with
            | nil => exact parseVal_objnil m rest
            | cons kv kvs' =>
                obtain ⟨k, v⟩ := kv
                have hszv := sizeJ_pos v
                have hszvs := sizeO_pos kvs'
                simp only [Js.sizeJ] at hsz
                have hv := (ih m hm).1 v (Js.serOTail kvs' ++ rest) (by omega)
                  (serOTail_not_digit kvs' rest)
                have ho := (ih m hm).2.2 kvs' rest (by omega)
                show Js.parseVal (m + 1)
                    ((Js.obChar :: (Js.serStrChars k ++ (':' :: (Js.ser v ++ Js.serOTail kvs')))) ++
                      rest) = _
                rw [List.cons_append, List.append_assoc, List.cons_append, List.append_assoc]
                exact parseVal_objcons m k v kvs' rest hv ho
      · intro vs rest hsz
        obtain ⟨m, rfl⟩ : ∃ m, n = m + 1 := ⟨n - 1, by have := sizeA_pos vs; omega⟩
        have hm : m < m + 1 := Nat.lt_succ_self m
        cases vs with
        | nil => exact parseArrTail_nil m rest
        | cons w ws =>
            have hszv := sizeJ_pos w
            have hszvs := sizeA_pos ws
            simp only [Js.sizeA] at hsz
            have hv := (ih m hm).1 w (Js.serTail ws ++ rest) (by omega)
              (serTail_not_digit ws rest)
            have ha := (ih m hm).2.1 ws rest (by omega)
            show Js.parseArrTail (m + 1) ((',' :: (Js.ser w ++ Js.serTail ws)) ++ rest) = _
            rw [List.cons_append, List.append_assoc]
            exact parseArrTail_cons m w ws rest hv ha
      · intro kvs rest hsz
        obtain ⟨m, rfl⟩ : ∃ m, n = m + 1 := ⟨n - 1, by have := sizeO_pos kvs; omega⟩
        have hm : m < m + 1 := Nat.lt_succ_self m
        cases kvs with
        | nil => exact parseObjTail_nil m rest
        | cons kv kvs' =>
            obtain ⟨k, v⟩ := kv
            have hszv := sizeJ_pos v
            have hszvs := sizeO_pos kvs'
            simp only [Js.sizeO] at hsz
            have hv := (ih m hm).1 v (Js.serOTail kvs' ++ rest) (by omega)
              (serOTail_not_digit kvs' rest)
            have ho := (ih m hm).2.2 kvs' rest (by omega)
            show Js.parseObjTail (m + 1)
                ((',' :: (Js.serStrChars k ++ (':' :: (Js.ser v ++ Js.serOTail kvs')))) ++ rest) = _
            rw [List.cons_append, List.append_assoc, List.cons_append, List.append_assoc]
            exact parseObjTail_cons m k v kvs' rest hv ho

theorem loads_dumps (v : Js.J) : Js.loads (Js.dumps v) = some v := by
  have hlen : Js.sizeJ v ≤ (Js.ser v).length + 1 := by
    have := (size_le_len (Js.sizeJ v)).1 v (le_refl _)
    omega
  have h := (parse_ser ((Js.ser v).length + 1)).1 v [] hlen rfl
  rw [List.append_nil] at h
  show (match Js.parseVal ((Js.dumps v).data.length + 1) (Js.dumps v).data with
        | some (w, []) => some w
        | _ => none) = some v
  show (match Js.parseVal ((Js.ser v).length + 1) (Js.ser v) with
        | some (w, []) => some w
        | _ => none) = some v
  rw [h]

/-- C9: writing any JSON-representable store with `save_json_atomic` and
reading it back with `load_json` yields the identical value (the
serializer and reader are exact inverses); a crash after the temp-file
write but before the rename leaves the original file byte-for-byte
unchanged; and the completed save leaves exactly the serialized store at
the target path with the temp file gone — readers only ever observe the
old or the new complete content. -/
theorem C9_atomic_save_roundtrip :
    ∀ (fs : Js.FS) (path : String) (v : Js.J),
      Js.load_json (Js.save_json_atomic fs path v) path = some v ∧
      Js.crash_mid_write fs path v path = fs path ∧
      Js.save_json_atomic fs path v path = some (Js.dumps v) ∧
      Js.save_json_atomic fs path v (Js.tmpPath path) = none := by
  intro fs path v
  have hne : path ≠ Js.tmpPath path := by
    intro h
    have hlen := congrArg String.length h
    rw [show Js.tmpPath path = path ++ ".tmp" from rfl, String.length_append] at hlen
    have h4 : (".tmp").length = 4 := rfl
    omega
  have hsave : Js.save_json_atomic fs path v path = some (Js.dumps v) := by
    unfold Js.save_json_atomic Js.fsRename Js.fsWrite
    rw [if_pos rfl, if_pos rfl]
  refine ⟨?_, ?_, hsave, ?_⟩
  · unfold Js.load_json
    rw [hsave]
    show Js.loads (Js.dumps v) = some v
    exact loads_dumps v
  · unfold Js.crash_mid_write Js.fsWrite
    rw [if_neg hne]
  · unfold Js.save_json_atomic Js.fsRename
    rw [if_neg (fun h => hne h.symm), if_pos rfl]
